import Mathlib

/-!
Shallow embedding of the libCBOR core (`src/CBOR.cpp`): the streaming
`Reader` state machine (`readDataType`), its typed accessors, the recursive
well-formedness checker (`isWellFormed`), and the `Writer`'s encoders.

Modelling conventions:
* A byte stream is a `List Nat` of byte values; `in_.read()` returns the
  next byte or `-1` when none is available (`readByte`), and
  `in_.available()` is the length of the remaining list.
* C++ unsigned machine integers are `Nat` with explicit `% 2^w` at the
  points where the source can wrap or truncate (`uint8_t` casts on
  `Print::write`, `uint32_t`/`uint64_t` shifts, the `2*val` overflow test).
* `int64_t` values are `Int`, converted through their 64-bit two's
  complement pattern by `u64ofInt` / `int64ofUInt64`.
* Doubles are the exact values `DVal` (a rational, a signed infinity, or
  NaN): every float operation the source performs on the paths modelled
  here (`ldexp` on small integers, `copysign`, bit reinterpretation) is
  exact in IEEE-754 binary64, so the rational model is faithful.
-/

namespace LibCBOR

/-- Major type constants from the source. -/
def kUnsignedInt : Nat := 0

def kNegativeInt : Nat := 1

def kBytes : Nat := 2

def kText : Nat := 3

def kArray : Nat := 4

def kMap : Nat := 5

def kTag : Nat := 6

def kSimpleOrFloat : Nat := 7

/-- `Reader::State` from the header: the five decode states. -/
inductive RState
  | kStart
  | kAdditionalInfo
  | kWaitAvailable
  | kReadValue
  | kDetermineType
deriving DecidableEq

/-- The `SyntaxError` enumeration. -/
inductive SyntaxError
  | kNoError
  | kUnknownAdditionalInfo
  | kNotAnIndefiniteType
  | kBadSimpleValue
deriving DecidableEq

/-- The `DataType` enumeration of logical types returned by the Reader. -/
inductive DataType
  | kUnsignedInt
  | kNegativeInt
  | kBytes
  | kText
  | kArray
  | kMap
  | kTag
  | kBoolean
  | kNull
  | kUndefined
  | kSimpleValue
  | kFloat
  | kDouble
  | kBreak
  | kEOS
  | kSyntaxError
deriving DecidableEq

/-- The Reader's decode-in-progress record: `state_`, `initialByte_`,
`value_`, `syntaxError_`, `majorType_`, `addlInfo_`, `waitAvailable_`. -/
structure ReaderState where
  state : RState
  initialByte : Int
  value : Nat
  syntaxError : SyntaxError
  majorType : Nat
  addlInfo : Nat
  waitAvailable : Nat
deriving DecidableEq

/-- A freshly constructed Reader (all fields are (re)initialized on the
first `readDataType` call, so the defaults are irrelevant). -/
def initialReader : ReaderState :=
  ⟨RState.kStart, -1, 0, SyntaxError.kNoError, 0, 0, 0⟩

/-- `in_.read()`: the next byte of the stream, or `-1` when none is
available.  The transport delivers bytes, hence the `% 256`. -/
def readByte : List Nat → Int × List Nat
  | [] => (-1, [])
  | b :: s => (((b % 256 : Nat) : Int), s)

/-- Conversion of a C++ `int`/`int64_t` value to `uint64_t`. -/
def u64ofInt (x : Int) : Nat := (x % (2 ^ 64 : Int)).toNat

/-- Conversion to `uint32_t`. -/
def u32ofInt (x : Int) : Nat := (x % (2 ^ 32 : Int)).toNat

/-- Conversion to `uint16_t`. -/
def u16ofInt (x : Int) : Nat := (x % (2 ^ 16 : Int)).toNat

/-- The `uint64_t` bit pattern reinterpreted as `int64_t`. -/
def int64ofUInt64 (v : Nat) : Int :=
  if v < 2 ^ 63 then (v : Int) else (v : Int) - 2 ^ 64

/-- `readDataType`, kStart block: read and decompose the initial byte. -/
def blockStart (r : ReaderState) (s : List Nat) :
    Except (DataType × ReaderState × List Nat) (ReaderState × List Nat) :=
  if r.state = RState.kStart then
    let p := readByte s
    let r₁ := { r with initialByte := p.1, value := 0,
                       syntaxError := SyntaxError.kNoError }
    if p.1 < 0 then
      Except.error (DataType.kEOS,
        { r₁ with majorType := 0, addlInfo := 0, waitAvailable := 0 }, p.2)
    else
      -- majorType_ = uint8(initialByte_) >> 5;  addlInfo_ = initialByte_ & 0x1f
      Except.ok ({ r₁ with majorType := p.1.toNat >>> 5,
                           addlInfo := p.1.toNat % 32,
                           state := RState.kAdditionalInfo }, p.2)
  else Except.ok (r, s)

/-- `readDataType`, kAdditionalInfo block: classify the additional info. -/
def blockAddl (r : ReaderState) (s : List Nat) :
    Except (DataType × ReaderState × List Nat) (ReaderState × List Nat) :=
  if r.state = RState.kAdditionalInfo then
    let r₀ := { r with waitAvailable := 0 }
    match r.addlInfo with
    | 24 => Except.ok ({ r₀ with waitAvailable := 1, state := RState.kWaitAvailable }, s)
    | 25 => Except.ok ({ r₀ with waitAvailable := 2, state := RState.kWaitAvailable }, s)
    | 26 => Except.ok ({ r₀ with waitAvailable := 4, state := RState.kWaitAvailable }, s)
    | 27 => Except.ok ({ r₀ with waitAvailable := 8, state := RState.kWaitAvailable }, s)
    | 28 | 29 | 30 =>
      Except.error (DataType.kSyntaxError,
        { r₀ with syntaxError := SyntaxError.kUnknownAdditionalInfo }, s)
    | 31 =>
      match r.majorType with
      | 0 | 1 | 6 =>
        Except.error (DataType.kSyntaxError,
          { r₀ with syntaxError := SyntaxError.kNotAnIndefiniteType }, s)
      | _ => Except.ok ({ r₀ with state := RState.kReadValue }, s)
    | _ => Except.ok ({ r₀ with state := RState.kReadValue }, s)
  else Except.ok (r, s)

/-- `readDataType`, kWaitAvailable block: wait for the argument bytes. -/
def blockWait (r : ReaderState) (s : List Nat) :
    Except (DataType × ReaderState × List Nat) (ReaderState × List Nat) :=
  if r.state = RState.kWaitAvailable then
    if s.length < r.waitAvailable then Except.error (DataType.kEOS, r, s)
    else Except.ok ({ r with state := RState.kReadValue }, s)
  else Except.ok (r, s)

/-- `readDataType`, kReadValue block: read the argument big-endian. -/
def blockReadValue (r : ReaderState) (s : List Nat) : ReaderState × List Nat :=
  if r.state = RState.kReadValue then
    let p : Nat × List Nat :=
      match r.addlInfo with
      | 24 =>
        let p1 := readByte s
        (u64ofInt p1.1, p1.2)
      | 25 =>
        let p1 := readByte s
        let p2 := readByte p1.2
        ((u16ofInt p1.1 <<< 8) ||| u16ofInt p2.1, p2.2)
      | 26 =>
        let p1 := readByte s
        let p2 := readByte p1.2
        let p3 := readByte p2.2
        let p4 := readByte p3.2
        (((u32ofInt p1.1 <<< 24) % 2 ^ 32) ||| ((u32ofInt p2.1 <<< 16) % 2 ^ 32) |||
           ((u32ofInt p3.1 <<< 8) % 2 ^ 32) ||| u32ofInt p4.1, p4.2)
      | 27 =>
        let p1 := readByte s
        let p2 := readByte p1.2
        let p3 := readByte p2.2
        let p4 := readByte p3.2
        let p5 := readByte p4.2
        let p6 := readByte p5.2
        let p7 := readByte p6.2
        let p8 := readByte p7.2
        (((u64ofInt p1.1 <<< 56) % 2 ^ 64) ||| ((u64ofInt p2.1 <<< 48) % 2 ^ 64) |||
           ((u64ofInt p3.1 <<< 40) % 2 ^ 64) ||| ((u64ofInt p4.1 <<< 32) % 2 ^ 64) |||
           ((u64ofInt p5.1 <<< 24) % 2 ^ 64) ||| ((u64ofInt p6.1 <<< 16) % 2 ^ 64) |||
           ((u64ofInt p7.1 <<< 8) % 2 ^ 64) ||| u64ofInt p8.1, p8.2)
      | 28 | 29 | 30 => (r.addlInfo, s)
      | 31 => (0, s)
      | _ => (r.addlInfo, s)
    ({ r with value := p.1, state := RState.kDetermineType }, p.2)
  else (r, s)

/-- `readDataType`, kDetermineType block: map `(major, addl, value)` to the
logical `DataType`; the state is set back to `kStart` first. -/
def blockDetermine (r : ReaderState) : DataType × ReaderState :=
  if r.state = RState.kDetermineType then
    let r₁ := { r with state := RState.kStart }
    match r.majorType with
    | 0 => (DataType.kUnsignedInt, r₁)
    | 1 => (DataType.kNegativeInt, r₁)
    | 2 => (DataType.kBytes, r₁)
    | 3 => (DataType.kText, r₁)
    | 4 => (DataType.kArray, r₁)
    | 5 => (DataType.kMap, r₁)
    | 6 => (DataType.kTag, r₁)
    | 7 =>
      match r.addlInfo with
      | 20 | 21 => (DataType.kBoolean, { r₁ with value := 0 })
      | 22 => (DataType.kNull, { r₁ with value := 0 })
      | 23 => (DataType.kUndefined, { r₁ with value := 0 })
      | 24 =>
        if r.value < 32 then
          (DataType.kSyntaxError, { r₁ with syntaxError := SyntaxError.kBadSimpleValue })
        else (DataType.kSimpleValue, r₁)
      | 25 | 26 => (DataType.kFloat, r₁)
      | 27 => (DataType.kDouble, r₁)
      | 28 | 29 | 30 =>
        (DataType.kSyntaxError, { r₁ with syntaxError := SyntaxError.kUnknownAdditionalInfo })
      | 31 => (DataType.kBreak, { r₁ with value := 0 })
      | _ => (DataType.kSimpleValue, r₁)
    | _ => (DataType.kUnsignedInt, r₁)
  else (DataType.kEOS, r)

/-- The tail of `readDataType` from the kDetermineType test on. -/
def phaseDetermine (r : ReaderState) (s : List Nat) : DataType × ReaderState × List Nat :=
  let p := blockDetermine r
  (p.1, p.2, s)

/-- The tail of `readDataType` from the kReadValue test on. -/
def phaseReadValue (r : ReaderState) (s : List Nat) : DataType × ReaderState × List Nat :=
  let p := blockReadValue r s
  phaseDetermine p.1 p.2

/-- The tail of `readDataType` from the kWaitAvailable test on. -/
def phaseWait (r : ReaderState) (s : List Nat) : DataType × ReaderState × List Nat :=
  match blockWait r s with
  | Except.error out => out
  | Except.ok p => phaseReadValue p.1 p.2

/-- The tail of `readDataType` from the kAdditionalInfo test on. -/
def phaseAddl (r : ReaderState) (s : List Nat) : DataType × ReaderState × List Nat :=
  match blockAddl r s with
  | Except.error out => out
  | Except.ok p => phaseWait p.1 p.2

/-- `Reader::readDataType()`: one pull step of the decoder; returns the
logical data type together with the updated Reader record and stream. -/
def readDataType (r : ReaderState) (s : List Nat) : DataType × ReaderState × List Nat :=
  match blockStart r s with
  | Except.error out => out
  | Except.ok p => phaseAddl p.1 p.2

/-- `Reader::getSyntaxError()`. -/
def getSyntaxError (r : ReaderState) : SyntaxError := r.syntaxError

/-- `Reader::getRawValue()`. -/
def getRawValue (r : ReaderState) : Nat := r.value

/-- `Reader::getLength()`. -/
def getLength (r : ReaderState) : Nat := r.value

/-- `Reader::isIndefiniteLength()`. -/
def isIndefiniteLength (r : ReaderState) : Bool :=
  match r.majorType with
  | 2 | 3 | 4 | 5 => decide (r.addlInfo = 31)
  | _ => false

/-- `Reader::getBoolean()`. -/
def getBoolean (r : ReaderState) : Bool :=
  if r.majorType = 7 then
    if r.addlInfo = 21 then true
    else if r.addlInfo = 24 ∧ r.value = 21 then true
    else false
  else false

/-- `Reader::getUnsignedInt()`. -/
def getUnsignedInt (r : ReaderState) : Nat :=
  if r.majorType = 0 then r.value else 0

/-- `Reader::getInt()`: `-1LL - static_cast<int64_t>(value_)` (the
subtraction never leaves the `int64_t` range, so plain `Int` is exact). -/
def getInt (r : ReaderState) : Int :=
  if r.majorType = 1 then -1 - int64ofUInt64 r.value else 0

/-- `Reader::getSimpleValue()` (`uint8_t` cast of `value_`). -/
def getSimpleValue (r : ReaderState) : Nat :=
  if r.majorType = 7 then r.value % 256 else 0

/-- `Reader::getTag()`. -/
def getTag (r : ReaderState) : Nat :=
  if r.majorType = 6 then r.value else 0

/-- The exact value of a C++ `double` on the paths the source exercises:
a rational number, a signed infinity, or NaN (payload and sign of NaN are
not observable through `==`/printing and are not modelled). -/
inductive DVal
  | finite (q : ℚ)
  | inf (neg : Bool)
  | nan
deriving DecidableEq

/-- `ldexp(m, e)`, exact (no rounding occurs for the small mantissas and
exponents the source feeds it). -/
def ldexpQ (m : ℚ) (e : ℤ) : ℚ := m * 2 ^ e

/-- `copysign(val, sign)` with `sign = ±1`. -/
def copysignQ (v : DVal) (neg : Bool) : DVal :=
  match v with
  | DVal.finite q => DVal.finite (if neg then -|q| else |q|)
  | DVal.inf _ => DVal.inf neg
  | DVal.nan => DVal.nan

/-- The IEEE-754 binary32 value denoted by the low 32 bits of `bits`
(the `memcpy` reinterpretation in `getDouble`, addl = 26, followed by the
exact widening to double). -/
def decodeSingleBits (bits : Nat) : DVal :=
  let b : Nat := bits % 2 ^ 32
  let e : Nat := (b >>> 23) % 256
  let m : Nat := b % 2 ^ 23
  let neg := decide (2 ^ 31 ≤ b)
  if e = 0 then copysignQ (DVal.finite (ldexpQ (m : ℚ) (-149))) neg
  else if e = 255 then (if m = 0 then DVal.inf neg else DVal.nan)
  else copysignQ (DVal.finite (ldexpQ ((m : ℚ) + 2 ^ 23) ((e : ℤ) - 150))) neg

/-- The IEEE-754 binary64 value denoted by the 64-bit pattern `bits`
(the `memcpy` reinterpretation in `getDouble`, addl = 27). -/
def decodeDoubleBits (bits : Nat) : DVal :=
  let b : Nat := bits % 2 ^ 64
  let e : Nat := (b >>> 52) % 2 ^ 11
  let m : Nat := b % 2 ^ 52
  let neg := decide (2 ^ 63 ≤ b)
  if e = 0 then copysignQ (DVal.finite (ldexpQ (m : ℚ) (-1074))) neg
  else if e = 2047 then (if m = 0 then DVal.inf neg else DVal.nan)
  else copysignQ (DVal.finite (ldexpQ ((m : ℚ) + 2 ^ 52) ((e : ℤ) - 1075))) neg

/-- `Reader::getDouble()`.  For addl = 25 this is the source's
half-precision decomposition (`kBitsM = 10`, `kBitsE = 5`,
`kExpBias = 15`); the sign test `half & (1 << 15)` is written as
`2^15 ≤ half`, equivalent for the 16-bit `half`. -/
def getDouble (r : ReaderState) : DVal :=
  if r.majorType ≠ 7 then DVal.finite 0
  else if r.addlInfo = 25 then
    let half : Nat := r.value % 2 ^ 16
    let e : Nat := (half >>> 10) % 32
    let m : Nat := half % 1024
    let val : DVal :=
      if e = 0 then DVal.finite (ldexpQ (m : ℚ) (1 - 15 - 10))
      else if e ≠ 31 then DVal.finite (ldexpQ ((m : ℚ) + 2 ^ 10) ((e : ℤ) - 15 - 10))
      else if m = 0 then DVal.inf false
      else DVal.nan
    copysignQ val (decide (2 ^ 15 ≤ half))
  else if r.addlInfo = 26 then decodeSingleBits r.value
  else if r.addlInfo = 27 then decodeDoubleBits r.value
  else DVal.finite 0

/-- `Reader::getFloat()`: `static_cast<float>(getDouble())`.  The
`double → float` narrowing conversion is kept as a parameter `narrow`;
the source applies it to the result of `getDouble` and does nothing else. -/
def getFloat (narrow : DVal → DVal) (r : ReaderState) : DVal :=
  narrow (getDouble r)

/-!  The Writer.  Output is the emitted byte list; `out_.write` truncates
its argument to `uint8_t`, hence each emitted byte carries `% 256`. -/

/-- `Writer::writeTypedInt(mt, u)`: the argument encoder. -/
def writeTypedInt (mt : Nat) (u : Nat) : List Nat :=
  if u < 24 then [(mt + u) % 256]
  else if u < 2 ^ 8 then [(mt + 24) % 256, u % 256]
  else if u < 2 ^ 16 then [(mt + 25) % 256, (u >>> 8) % 256, u % 256]
  else if u < 2 ^ 32 then
    [(mt + 26) % 256, (u >>> 24) % 256, (u >>> 16) % 256, (u >>> 8) % 256, u % 256]
  else
    [(mt + 27) % 256, (u >>> 56) % 256, (u >>> 48) % 256, (u >>> 40) % 256,
      (u >>> 32) % 256, (u >>> 24) % 256, (u >>> 16) % 256, (u >>> 8) % 256, u % 256]

/-- `Writer::writeUnsignedInt(u)`. -/
def writeUnsignedInt (u : Nat) : List Nat := writeTypedInt (kUnsignedInt <<< 5) u

/-- `Writer::writeInt(i)`: branchless sign handling.
`uint64_t u = i >> 63` (arithmetic shift), `mt = u & (kNegativeInt << 5)`,
`u ^= i`, then `writeTypedInt(mt, u)`. -/
def writeInt (i : Int) : List Nat :=
  let u : Nat := u64ofInt (i >>> 63)
  let mt : Nat := u &&& (kNegativeInt <<< 5)
  writeTypedInt mt (u ^^^ u64ofInt i)

/-- `Writer::writeBoolean(b)`. -/
def writeBoolean (b : Bool) : List Nat :=
  [(kSimpleOrFloat <<< 5) + (if b then 21 else 20)]

/-- `Writer::writeNull()`. -/
def writeNull : List Nat := [(kSimpleOrFloat <<< 5) + 22]

/-- `Writer::writeUndefined()`. -/
def writeUndefined : List Nat := [(kSimpleOrFloat <<< 5) + 23]

/-- `Writer::writeSimpleValue(v)` (`v` is a `uint8_t`). -/
def writeSimpleValue (v : Nat) : List Nat :=
  if v % 256 < 24 then [(kSimpleOrFloat <<< 5) + v % 256]
  else [(kSimpleOrFloat <<< 5) + 24, v % 256]

/-- `Writer::writeTag(v)`. -/
def writeTag (v : Nat) : List Nat := writeTypedInt (kTag <<< 5) v

/-- `Writer::beginBytes(length)`. -/
def beginBytes (length : Nat) : List Nat := writeTypedInt (kBytes <<< 5) length

/-- `Writer::beginText(length)`. -/
def beginText (length : Nat) : List Nat := writeTypedInt (kText <<< 5) length

/-- `Writer::beginArray(length)`. -/
def beginArray (length : Nat) : List Nat := writeTypedInt (kArray <<< 5) length

/-- `Writer::beginMap(length)`. -/
def beginMap (length : Nat) : List Nat := writeTypedInt (kMap <<< 5) length

/-- `Writer::beginIndefiniteBytes()`. -/
def beginIndefiniteBytes : List Nat := [(kBytes <<< 5) + 31]

/-- `Writer::beginIndefiniteText()`. -/
def beginIndefiniteText : List Nat := [(kText <<< 5) + 31]

/-- `Writer::beginIndefiniteArray()`. -/
def beginIndefiniteArray : List Nat := [(kArray <<< 5) + 31]

/-- `Writer::beginIndefiniteMap()`. -/
def beginIndefiniteMap : List Nat := [(kMap <<< 5) + 31]

/-- `Writer::endIndefinite()`. -/
def endIndefinite : List Nat := [(kSimpleOrFloat <<< 5) + 31]

/-!  The well-formedness checker.  The C++ recursion has no explicit
bound; every level consumes at least one byte before recursing, so on a
stream `s` the depth never exceeds `s.length`.  The Lean functions carry
a structural counter (`fuel`, and an iteration counter for the
indefinite-length `while (true)` loops) initialized to `length + 1`; the
exhaustion branches are unreachable for those initial values.  The
`val <= UINT32_MAX` fast paths of the source perform the same iteration
as the 64-bit loops and are modelled by the single loop. -/

/-- The `for` loops of the Array/Map cases: check `n` consecutive items
with the child checker `ck`; `0` on success, `-1` on the first failure. -/
def checkChildren (ck : List Nat → Int × List Nat) : Nat → List Nat → Int × List Nat
  | 0, s => (0, s)
  | n + 1, s =>
    let p := ck s
    if p.1 < 0 then (-1, p.2) else checkChildren ck n p.2

/-- The indefinite Bytes/Text loop of `isIndefiniteWellFormed`: children
must report `-2` (Break, terminating) or exactly the outer major type. -/
def strLoop (ck : Bool → List Nat → Int × List Nat) (majorType : Nat) :
    Nat → List Nat → Int × List Nat
  | 0, s => (-1, s)
  | k + 1, s =>
    let p := ck true s
    if p.1 = -2 then ((majorType : Int), p.2)
    else if p.1 = -1 then (-1, p.2)
    else if p.1 ≠ (majorType : Int) then (-1, p.2)
    else strLoop ck majorType k p.2

/-- The indefinite Array loop of `isIndefiniteWellFormed`. -/
def arrLoop (ck : Bool → List Nat → Int × List Nat) (majorType : Nat) :
    Nat → List Nat → Int × List Nat
  | 0, s => (-1, s)
  | k + 1, s =>
    let p := ck true s
    if p.1 = -2 then ((majorType : Int), p.2)
    else if p.1 = -1 then (-1, p.2)
    else arrLoop ck majorType k p.2

/-- The indefinite Map loop of `isIndefiniteWellFormed`: after a non-Break
key, a value item is checked with `breakable = false`. -/
def mapLoop (ck : Bool → List Nat → Int × List Nat) :
    Nat → List Nat → Int × List Nat
  | 0, s => (-1, s)
  | k + 1, s =>
    let p := ck true s
    if p.1 = -2 then ((5 : Int), p.2)
    else if p.1 = -1 then (-1, p.2)
    else
      let q := ck false p.2
      if q.1 < 0 then (-1, q.2) else mapLoop ck k q.2

/-- `Reader::isIndefiniteWellFormed(majorType, breakable)`. -/
def isIndefiniteWellFormed (ck : Bool → List Nat → Int × List Nat)
    (majorType : Nat) (breakable : Bool) (s : List Nat) : Int × List Nat :=
  match majorType with
  | 2 => strLoop ck 2 (s.length + 1) s
  | 3 => strLoop ck 3 (s.length + 1) s
  | 4 => arrLoop ck 4 (s.length + 1) s
  | 5 => mapLoop ck (s.length + 1) s
  | 7 => if breakable then (-2, s) else (-1, s)
  | _ => (-1, s)

/-- `Reader::isWellFormed(breakable)`: check one data item; returns its
major type on success, `-1` if malformed, `-2` for a Break when
`breakable`, together with the remaining stream (a failed byte read has
consumed the whole stream). -/
def isWellFormedAux : Nat → Bool → List Nat → Int × List Nat
  | 0, _, s => (-1, s)
  | fuel + 1, breakable, s =>
    match s with
    | [] => (-1, [])
    | ib :: s₁ =>
      let majorType := (ib % 256) >>> 5
      let ai := ib % 32
      if ai = 28 ∨ ai = 29 ∨ ai = 30 then (-1, s₁)
      else if ai = 31 then
        isIndefiniteWellFormed (fun br t => isWellFormedAux fuel br t) majorType breakable s₁
      else
        let argOpt : Option (Nat × List Nat) :=
          if ai = 24 then
            match s₁ with
            | v :: s₂ => some (v % 256, s₂)
            | _ => none
          else if ai = 25 then
            match s₁ with
            | b1 :: b2 :: s₂ =>
              some ((((b1 % 256) <<< 8) ||| (b2 % 256)) % 2 ^ 16, s₂)
            | _ => none
          else if ai = 26 then
            match s₁ with
            | b1 :: b2 :: b3 :: b4 :: s₂ =>
              some ((((b1 % 256) <<< 24) ||| ((b2 % 256) <<< 16) |||
                      ((b3 % 256) <<< 8) ||| (b4 % 256)) % 2 ^ 32, s₂)
            | _ => none
          else if ai = 27 then
            match s₁ with
            | b1 :: b2 :: b3 :: b4 :: b5 :: b6 :: b7 :: b8 :: s₂ =>
              let v1 := (((b1 % 256) <<< 24) ||| ((b2 % 256) <<< 16) |||
                          ((b3 % 256) <<< 8) ||| (b4 % 256)) % 2 ^ 32
              let v2 := (((b5 % 256) <<< 24) ||| ((b6 % 256) <<< 16) |||
                          ((b7 % 256) <<< 8) ||| (b8 % 256)) % 2 ^ 32
              some (((v1 <<< 32) % 2 ^ 64) ||| v2, s₂)
            | _ => none
          else some (ai, s₁)
        match argOpt with
        | none => (-1, [])
        | some (val, s₂) =>
          if majorType = 7 ∧ ai = 24 ∧ val < 32 then (-1, s₂)
          else
            match majorType with
            | 2 | 3 =>
              if val ≤ s₂.length then ((majorType : Int), s₂.drop val) else (-1, [])
            | 5 =>
              if val ≠ 0 ∧ (2 * val) % 2 ^ 64 ≤ val then (-1, s₂)
              else
                let p := checkChildren (fun t => isWellFormedAux fuel false t)
                  ((2 * val) % 2 ^ 64) s₂
                if p.1 < 0 then (-1, p.2) else ((5 : Int), p.2)
            | 4 =>
              let p := checkChildren (fun t => isWellFormedAux fuel false t) val s₂
              if p.1 < 0 then (-1, p.2) else ((4 : Int), p.2)
            | 6 =>
              let p := isWellFormedAux fuel false s₂
              if p.1 < 0 then (-1, p.2) else ((6 : Int), p.2)
            | _ => ((majorType : Int), s₂)

/-- `Reader::isWellFormed(breakable)` on a whole stream (counter
initialized so that exhaustion is unreachable). -/
def isWellFormedFrom (breakable : Bool) (s : List Nat) : Int × List Nat :=
  isWellFormedAux (s.length + 1) breakable s

/-- `Reader::isWellFormed()`: the public entry point. -/
def isWellFormedBool (s : List Nat) : Bool :=
  decide (0 ≤ (isWellFormedFrom false s).1)

/-- The additional-info code `writeTypedInt` selects for argument `u`
(and the widths recorded by the Reader while decoding it). -/
def codeOf (u : Nat) : Nat :=
  if u < 24 then u
  else if u < 2 ^ 8 then 24
  else if u < 2 ^ 16 then 25
  else if u < 2 ^ 32 then 26
  else 27

/-- The `waitAvailable_` count the Reader records for that code. -/
def waOf (u : Nat) : Nat :=
  if u < 24 then 0
  else if u < 2 ^ 8 then 1
  else if u < 2 ^ 16 then 2
  else if u < 2 ^ 32 then 4
  else 8

set_option maxHeartbeats 1000000 in
/-- The claim's notion of a width being able to represent an argument:
width `0` is the embedded form (`u < 24`), width `w` bytes holds `u < 2^(8w)`. -/
def canRepresent (w u : Nat) : Prop :=
  if w = 0 then u < 24 else u < 2 ^ (8 * w)

instance (w u : Nat) : Decidable (canRepresent w u) := by
  unfold canRepresent
  infer_instance

/-- The half-precision decoding as the specification states it: sign is
bit 15, exponent bits 14..10, mantissa bits 9..0; subnormals are
`ldexp(m, -24)`, normals `ldexp(m + 1024, e - 25)`, exponent 31 gives an
infinity or NaN; the sign is applied via copysign. -/
def halfSpec (h : Nat) : DVal :=
  let s : Bool := h.testBit 15
  let e : Nat := (h >>> 10) % 32
  let m : Nat := h % 1024
  let v : DVal :=
    if e = 0 then DVal.finite (ldexpQ (m : ℚ) (-24))
    else if e < 31 then DVal.finite (ldexpQ ((m : ℚ) + 1024) ((e : ℤ) - 25))
    else if m = 0 then DVal.inf false
    else DVal.nan
  copysignQ v s

/-- The chunk sequence of a well-formed indefinite Bytes/Text item: with
child checker `ck`, stream `s` consists of zero or more children, each of
which `ck true` reports with exactly the outer major type `mt`, followed
by one child reported as Break (`-2`), leaving `s'`. -/
inductive ChunksOk (ck : Bool → List Nat → Int × List Nat) (mt : Nat) :
    List Nat → List Nat → Prop
  | brk : ∀ s s', ck true s = (-2, s') → ChunksOk ck mt s s'
  | chunk : ∀ s s₁ s', ck true s = ((mt : Int), s₁) → ChunksOk ck mt s₁ s' →
      ChunksOk ck mt s s'

/-!  Arithmetic facts about the bitwise operations used by the source. -/

lemma lor_mul_pow_add (k : Nat) : ∀ a b : Nat, b < 2 ^ k → (a * 2 ^ k) ||| b = a * 2 ^ k + b := by
  induction k with
  | zero =>
    intro a b hb
    interval_cases b
    simp
  | succ k ih =>
    intro a b hb
    have hpow : 2 ^ (k + 1) = 2 * 2 ^ k := by ring
    have hmul : a * 2 ^ (k + 1) = 2 * (a * 2 ^ k) := by rw [hpow]; ring
    have e1 : a * 2 ^ (k + 1) = Nat.bit false (a * 2 ^ k) := by
      simp only [Nat.bit, Bool.cond_false]
      omega
    have e2 : b = Nat.bit (decide (b % 2 = 1)) (b / 2) := by
      rcases Nat.mod_two_eq_zero_or_one b with h | h <;>
        simp only [h, Nat.bit] <;> simp <;> omega
    have key : (a * 2 ^ (k + 1)) ||| b =
        Nat.bit (decide (b % 2 = 1)) (a * 2 ^ k + b / 2) := by
      conv_lhs => rw [e1, e2]
      rw [Nat.lor_bit, ih a (b / 2) (by omega)]
      simp
    rw [key]
    rcases Nat.mod_two_eq_zero_or_one b with h | h <;>
      simp only [h, Nat.bit] <;> simp <;> omega

lemma shiftLeft_lor_eq_add (a b k : Nat) (hb : b < 2 ^ k) :
    (a <<< k) ||| b = a * 2 ^ k + b := by
  rw [Nat.shiftLeft_eq]
  exact lor_mul_pow_add k a b hb

lemma xor_two_pow_sub_one (k : Nat) : ∀ n : Nat, n < 2 ^ k → (2 ^ k - 1) ^^^ n = 2 ^ k - 1 - n := by
  induction k with
  | zero =>
    intro n hn
    interval_cases n
    simp
  | succ k ih =>
    intro n hn
    have hpow : 2 ^ (k + 1) = 2 * 2 ^ k := by ring
    have h1 : (1 : Nat) ≤ 2 ^ k := Nat.one_le_two_pow
    have e1 : 2 ^ (k + 1) - 1 = Nat.bit true (2 ^ k - 1) := by
      simp only [Nat.bit, Bool.cond_true]
      omega
    have e2 : n = Nat.bit (decide (n % 2 = 1)) (n / 2) := by
      rcases Nat.mod_two_eq_zero_or_one n with h | h <;>
        simp only [h, Nat.bit] <;> simp <;> omega
    have key : (2 ^ (k + 1) - 1) ^^^ n =
        Nat.bit (!decide (n % 2 = 1)) (2 ^ k - 1 - n / 2) := by
      conv_lhs => rw [e1, e2]
      rw [Nat.xor_bit, ih (n / 2) (by omega)]
      simp
    rw [key]
    rcases Nat.mod_two_eq_zero_or_one n with h | h <;>
      simp only [h, Nat.bit] <;> simp <;> omega

lemma u64ofInt_natCast (n : Nat) : u64ofInt (n : Int) = n % 2 ^ 64 := by
  unfold u64ofInt
  omega

lemma u32ofInt_natCast (n : Nat) : u32ofInt (n : Int) = n % 2 ^ 32 := by
  unfold u32ofInt
  omega

lemma u16ofInt_natCast (n : Nat) : u16ofInt (n : Int) = n % 2 ^ 16 := by
  unfold u16ofInt
  omega



lemma lor2_bytes (d1 d0 : Nat) (h1 : d1 < 256) (h0 : d0 < 256) :
    (d1 <<< 8) ||| d0 = d1 * 2 ^ 8 + d0 :=
  shiftLeft_lor_eq_add d1 d0 8 (by omega)

lemma lor4_bytes (d3 d2 d1 d0 : Nat) (h3 : d3 < 256) (h2 : d2 < 256)
    (h1 : d1 < 256) (h0 : d0 < 256) :
    (d3 <<< 24) ||| (d2 <<< 16) ||| (d1 <<< 8) ||| d0 =
      d3 * 2 ^ 24 + d2 * 2 ^ 16 + d1 * 2 ^ 8 + d0 := by
  simp only [Nat.shiftLeft_eq]
  have e2 : (d3 * 2 ^ 24) ||| (d2 * 2 ^ 16) = d3 * 2 ^ 24 + d2 * 2 ^ 16 :=
    lor_mul_pow_add 24 d3 (d2 * 2 ^ 16) (by omega)
  have e1 : (d3 * 2 ^ 24 + d2 * 2 ^ 16) ||| (d1 * 2 ^ 8) =
      d3 * 2 ^ 24 + d2 * 2 ^ 16 + d1 * 2 ^ 8 := by
    have h := lor_mul_pow_add 16 (d3 * 2 ^ 8 + d2) (d1 * 2 ^ 8) (by omega)
    have a1 : (d3 * 2 ^ 8 + d2) * 2 ^ 16 = d3 * 2 ^ 24 + d2 * 2 ^ 16 := by ring
    rw [a1] at h
    exact h
  have e0 : (d3 * 2 ^ 24 + d2 * 2 ^ 16 + d1 * 2 ^ 8) ||| d0 =
      d3 * 2 ^ 24 + d2 * 2 ^ 16 + d1 * 2 ^ 8 + d0 := by
    have h := lor_mul_pow_add 8 (d3 * 2 ^ 16 + d2 * 2 ^ 8 + d1) d0 (by omega)
    have a1 : (d3 * 2 ^ 16 + d2 * 2 ^ 8 + d1) * 2 ^ 8 =
        d3 * 2 ^ 24 + d2 * 2 ^ 16 + d1 * 2 ^ 8 := by ring
    rw [a1] at h
    exact h
  rw [e2, e1, e0]

lemma lor8_bytes (d7 d6 d5 d4 d3 d2 d1 d0 : Nat) (h7 : d7 < 256) (h6 : d6 < 256)
    (h5 : d5 < 256) (h4 : d4 < 256) (h3 : d3 < 256) (h2 : d2 < 256)
    (h1 : d1 < 256) (h0 : d0 < 256) :
    (d7 <<< 56) ||| (d6 <<< 48) ||| (d5 <<< 40) ||| (d4 <<< 32) |||
        (d3 <<< 24) ||| (d2 <<< 16) ||| (d1 <<< 8) ||| d0 =
      d7 * 2 ^ 56 + d6 * 2 ^ 48 + d5 * 2 ^ 40 + d4 * 2 ^ 32 + d3 * 2 ^ 24 +
        d2 * 2 ^ 16 + d1 * 2 ^ 8 + d0 := by
  simp only [Nat.shiftLeft_eq]
  have e6 : (d7 * 2 ^ 56) ||| (d6 * 2 ^ 48) = d7 * 2 ^ 56 + d6 * 2 ^ 48 :=
    lor_mul_pow_add 56 d7 (d6 * 2 ^ 48) (by omega)
  have e5 : (d7 * 2 ^ 56 + d6 * 2 ^ 48) ||| (d5 * 2 ^ 40) =
      d7 * 2 ^ 56 + d6 * 2 ^ 48 + d5 * 2 ^ 40 := by
    have h := lor_mul_pow_add 48 (d7 * 2 ^ 8 + d6) (d5 * 2 ^ 40) (by omega)
    have a1 : (d7 * 2 ^ 8 + d6) * 2 ^ 48 = d7 * 2 ^ 56 + d6 * 2 ^ 48 := by ring
    rw [a1] at h
    exact h
  have e4 : (d7 * 2 ^ 56 + d6 * 2 ^ 48 + d5 * 2 ^ 40) ||| (d4 * 2 ^ 32) =
      d7 * 2 ^ 56 + d6 * 2 ^ 48 + d5 * 2 ^ 40 + d4 * 2 ^ 32 := by
    have h := lor_mul_pow_add 40 (d7 * 2 ^ 16 + d6 * 2 ^ 8 + d5) (d4 * 2 ^ 32) (by omega)
    have a1 : (d7 * 2 ^ 16 + d6 * 2 ^ 8 + d5) * 2 ^ 40 = d7 * 2 ^ 56 + d6 * 2 ^ 48 + d5 * 2 ^ 40 := by ring
    rw [a1] at h
    exact h
  have e3 : (d7 * 2 ^ 56 + d6 * 2 ^ 48 + d5 * 2 ^ 40 + d4 * 2 ^ 32) ||| (d3 * 2 ^ 24) =
      d7 * 2 ^ 56 + d6 * 2 ^ 48 + d5 * 2 ^ 40 + d4 * 2 ^ 32 + d3 * 2 ^ 24 := by
    have h := lor_mul_pow_add 32 (d7 * 2 ^ 24 + d6 * 2 ^ 16 + d5 * 2 ^ 8 + d4) (d3 * 2 ^ 24) (by omega)
    have a1 : (d7 * 2 ^ 24 + d6 * 2 ^ 16 + d5 * 2 ^ 8 + d4) * 2 ^ 32 = d7 * 2 ^ 56 + d6 * 2 ^ 48 + d5 * 2 ^ 40 + d4 * 2 ^ 32 := by ring
    rw [a1] at h
    exact h
  have e2 : (d7 * 2 ^ 56 + d6 * 2 ^ 48 + d5 * 2 ^ 40 + d4 * 2 ^ 32 + d3 * 2 ^ 24) ||| (d2 * 2 ^ 16) =
      d7 * 2 ^ 56 + d6 * 2 ^ 48 + d5 * 2 ^ 40 + d4 * 2 ^ 32 + d3 * 2 ^ 24 + d2 * 2 ^ 16 := by
    have h := lor_mul_pow_add 24 (d7 * 2 ^ 32 + d6 * 2 ^ 24 + d5 * 2 ^ 16 + d4 * 2 ^ 8 + d3) (d2 * 2 ^ 16) (by omega)
    have a1 : (d7 * 2 ^ 32 + d6 * 2 ^ 24 + d5 * 2 ^ 16 + d4 * 2 ^ 8 + d3) * 2 ^ 24 = d7 * 2 ^ 56 + d6 * 2 ^ 48 + d5 * 2 ^ 40 + d4 * 2 ^ 32 + d3 * 2 ^ 24 := by ring
    rw [a1] at h
    exact h
  have e1 : (d7 * 2 ^ 56 + d6 * 2 ^ 48 + d5 * 2 ^ 40 + d4 * 2 ^ 32 + d3 * 2 ^ 24 + d2 * 2 ^ 16) ||| (d1 * 2 ^ 8) =
      d7 * 2 ^ 56 + d6 * 2 ^ 48 + d5 * 2 ^ 40 + d4 * 2 ^ 32 + d3 * 2 ^ 24 + d2 * 2 ^ 16 + d1 * 2 ^ 8 := by
    have h := lor_mul_pow_add 16 (d7 * 2 ^ 40 + d6 * 2 ^ 32 + d5 * 2 ^ 24 + d4 * 2 ^ 16 + d3 * 2 ^ 8 + d2) (d1 * 2 ^ 8) (by omega)
    have a1 : (d7 * 2 ^ 40 + d6 * 2 ^ 32 + d5 * 2 ^ 24 + d4 * 2 ^ 16 + d3 * 2 ^ 8 + d2) * 2 ^ 16 = d7 * 2 ^ 56 + d6 * 2 ^ 48 + d5 * 2 ^ 40 + d4 * 2 ^ 32 + d3 * 2 ^ 24 + d2 * 2 ^ 16 := by ring
    rw [a1] at h
    exact h
  have e0 : (d7 * 2 ^ 56 + d6 * 2 ^ 48 + d5 * 2 ^ 40 + d4 * 2 ^ 32 + d3 * 2 ^ 24 + d2 * 2 ^ 16 + d1 * 2 ^ 8) ||| (d0) =
      d7 * 2 ^ 56 + d6 * 2 ^ 48 + d5 * 2 ^ 40 + d4 * 2 ^ 32 + d3 * 2 ^ 24 + d2 * 2 ^ 16 + d1 * 2 ^ 8 + d0 := by
    have h := lor_mul_pow_add 8 (d7 * 2 ^ 48 + d6 * 2 ^ 40 + d5 * 2 ^ 32 + d4 * 2 ^ 24 + d3 * 2 ^ 16 + d2 * 2 ^ 8 + d1) (d0) (by omega)
    have a1 : (d7 * 2 ^ 48 + d6 * 2 ^ 40 + d5 * 2 ^ 32 + d4 * 2 ^ 24 + d3 * 2 ^ 16 + d2 * 2 ^ 8 + d1) * 2 ^ 8 = d7 * 2 ^ 56 + d6 * 2 ^ 48 + d5 * 2 ^ 40 + d4 * 2 ^ 32 + d3 * 2 ^ 24 + d2 * 2 ^ 16 + d1 * 2 ^ 8 := by ring
    rw [a1] at h
    exact h
  rw [e6, e5, e4, e3, e2, e1, e0]

lemma u16ofInt_natCast_mod256 (a : Nat) : u16ofInt ((a : Int) % 256) = a % 256 := by
  unfold u16ofInt
  omega

lemma u32ofInt_natCast_mod256 (a : Nat) : u32ofInt ((a : Int) % 256) = a % 256 := by
  unfold u32ofInt
  omega

lemma u64ofInt_natCast_mod256 (a : Nat) : u64ofInt ((a : Int) % 256) = a % 256 := by
  unfold u64ofInt
  omega

lemma modLor4 (d3 d2 d1 d0 : Nat) (h3 : d3 < 256) (h2 : d2 < 256)
    (h1 : d1 < 256) (h0 : d0 < 256) :
    ((d3 <<< 24) % 2 ^ 32) ||| ((d2 <<< 16) % 2 ^ 32) ||| ((d1 <<< 8) % 2 ^ 32) ||| d0 =
      d3 * 2 ^ 24 + d2 * 2 ^ 16 + d1 * 2 ^ 8 + d0 := by
  have m3 : (d3 <<< 24) % 2 ^ 32 = d3 <<< 24 :=
    Nat.mod_eq_of_lt (by rw [Nat.shiftLeft_eq]; omega)
  have m2 : (d2 <<< 16) % 2 ^ 32 = d2 <<< 16 :=
    Nat.mod_eq_of_lt (by rw [Nat.shiftLeft_eq]; omega)
  have m1 : (d1 <<< 8) % 2 ^ 32 = d1 <<< 8 :=
    Nat.mod_eq_of_lt (by rw [Nat.shiftLeft_eq]; omega)
  rw [m3, m2, m1]
  exact lor4_bytes d3 d2 d1 d0 h3 h2 h1 h0

lemma modLor8 (d7 d6 d5 d4 d3 d2 d1 d0 : Nat) (h7 : d7 < 256) (h6 : d6 < 256)
    (h5 : d5 < 256) (h4 : d4 < 256) (h3 : d3 < 256) (h2 : d2 < 256)
    (h1 : d1 < 256) (h0 : d0 < 256) :
    ((d7 <<< 56) % 2 ^ 64) ||| ((d6 <<< 48) % 2 ^ 64) ||| ((d5 <<< 40) % 2 ^ 64) |||
        ((d4 <<< 32) % 2 ^ 64) ||| ((d3 <<< 24) % 2 ^ 64) ||| ((d2 <<< 16) % 2 ^ 64) |||
        ((d1 <<< 8) % 2 ^ 64) ||| d0 =
      d7 * 2 ^ 56 + d6 * 2 ^ 48 + d5 * 2 ^ 40 + d4 * 2 ^ 32 + d3 * 2 ^ 24 +
        d2 * 2 ^ 16 + d1 * 2 ^ 8 + d0 := by
  have m7 : (d7 <<< 56) % 2 ^ 64 = d7 <<< 56 :=
    Nat.mod_eq_of_lt (by rw [Nat.shiftLeft_eq]; omega)
  have m6 : (d6 <<< 48) % 2 ^ 64 = d6 <<< 48 :=
    Nat.mod_eq_of_lt (by rw [Nat.shiftLeft_eq]; omega)
  have m5 : (d5 <<< 40) % 2 ^ 64 = d5 <<< 40 :=
    Nat.mod_eq_of_lt (by rw [Nat.shiftLeft_eq]; omega)
  have m4 : (d4 <<< 32) % 2 ^ 64 = d4 <<< 32 :=
    Nat.mod_eq_of_lt (by rw [Nat.shiftLeft_eq]; omega)
  have m3 : (d3 <<< 24) % 2 ^ 64 = d3 <<< 24 :=
    Nat.mod_eq_of_lt (by rw [Nat.shiftLeft_eq]; omega)
  have m2 : (d2 <<< 16) % 2 ^ 64 = d2 <<< 16 :=
    Nat.mod_eq_of_lt (by rw [Nat.shiftLeft_eq]; omega)
  have m1 : (d1 <<< 8) % 2 ^ 64 = d1 <<< 8 :=
    Nat.mod_eq_of_lt (by rw [Nat.shiftLeft_eq]; omega)
  rw [m7, m6, m5, m4, m3, m2, m1]
  exact lor8_bytes d7 d6 d5 d4 d3 d2 d1 d0 h7 h6 h5 h4 h3 h2 h1 h0

lemma read_typed (m u : Nat) (rest : List Nat) (hm : m < 8) (hu : u < 2 ^ 64) :
    readDataType initialReader (writeTypedInt (32 * m) u ++ rest) =
      phaseDetermine
        { state := RState.kDetermineType,
          initialByte := ((32 * m + codeOf u : Nat) : Int),
          value := u, syntaxError := SyntaxError.kNoError, majorType := m,
          addlInfo := codeOf u, waitAvailable := waOf u } rest := by
  by_cases h24 : u < 24
  · have hb : (32 * m + u) % 256 = 32 * m + u := Nat.mod_eq_of_lt (by omega)
    have hmaj : (32 * m + u) >>> 5 = m := by rw [Nat.shiftRight_eq_div_pow]; omega
    have haddl : (32 * m + u) % 32 = u := by omega
    have hcode : codeOf u = u := by rw [codeOf, if_pos h24]
    have hwa : waOf u = 0 := by rw [waOf, if_pos h24]
    have hic : ¬(((32 * m + u : Nat) : Int) < 0) := not_lt.mpr (Int.natCast_nonneg _)
    simp only [writeTypedInt, if_pos h24, List.cons_append, List.nil_append]
    simp only [readDataType, blockStart, readByte, initialReader, hb]
    simp only [if_true, if_neg hic, Int.toNat_natCast, hmaj, haddl, hcode, hwa]
    interval_cases u <;>
      simp [phaseAddl, blockAddl, phaseWait, blockWait, phaseReadValue, blockReadValue,
        phaseDetermine]
  · by_cases h8 : u < 2 ^ 8
    · have hb : (32 * m + 24) % 256 = 32 * m + 24 := Nat.mod_eq_of_lt (by omega)
      have hmaj : (32 * m + 24) >>> 5 = m := by rw [Nat.shiftRight_eq_div_pow]; omega
      have haddl : (32 * m + 24) % 32 = 24 := by omega
      have hcode : codeOf u = 24 := by rw [codeOf, if_neg h24, if_pos h8]
      have hwa : waOf u = 1 := by rw [waOf, if_neg h24, if_pos h8]
      have hic : ¬(((32 * m + 24 : Nat) : Int) < 0) := not_lt.mpr (Int.natCast_nonneg _)
      have hu8 : u % 256 = u := Nat.mod_eq_of_lt h8
      have hval : u64ofInt ((u : Nat) : Int) = u := by rw [u64ofInt_natCast]; omega
      simp only [writeTypedInt, if_neg h24, if_pos h8, List.cons_append, List.nil_append]
      simp only [readDataType, blockStart, readByte, initialReader, hb]
      simp only [if_true, if_neg hic, Int.toNat_natCast, hmaj, haddl, hcode, hwa]
      simp [phaseAddl, blockAddl, phaseWait, blockWait, phaseReadValue, blockReadValue,
        phaseDetermine, readByte, hu8, hval]
    · by_cases h16 : u < 2 ^ 16
      · have hb : (32 * m + 25) % 256 = 32 * m + 25 := Nat.mod_eq_of_lt (by omega)
        have hmaj : (32 * m + 25) >>> 5 = m := by rw [Nat.shiftRight_eq_div_pow]; omega
        have haddl : (32 * m + 25) % 32 = 25 := by omega
        have hcode : codeOf u = 25 := by
          rw [codeOf, if_neg h24, if_neg h8, if_pos h16]
        have hwa : waOf u = 2 := by rw [waOf, if_neg h24, if_neg h8, if_pos h16]
        have hic : ¬(((32 * m + 25 : Nat) : Int) < 0) := not_lt.mpr (Int.natCast_nonneg _)
        have hlen : ¬(rest.length + 1 + 1 < 2) := by omega
        have q1 : (u >>> 8) % 256 % 256 = (u >>> 8) % 256 := by omega
        have q0 : u % 256 % 256 = u % 256 := by omega
        have hval : (((u >>> 8) % 256) <<< 8) ||| u % 256 = u := by
          rw [lor2_bytes ((u >>> 8) % 256) (u % 256) (by omega) (by omega),
            Nat.shiftRight_eq_div_pow]
          omega
        simp only [writeTypedInt, if_neg h24, if_neg h8, if_pos h16,
          List.cons_append, List.nil_append]
        simp only [readDataType, blockStart, readByte, initialReader, hb]
        simp only [if_true, if_neg hic, Int.toNat_natCast, hmaj, haddl, hcode, hwa]
        simp [phaseAddl, blockAddl, phaseWait, blockWait, phaseReadValue, blockReadValue,
          phaseDetermine, readByte, hlen, u16ofInt_natCast_mod256, q1, q0, hval]
      · by_cases h32 : u < 2 ^ 32
        · have hval : ((((u >>> 24) % 256) <<< 24) % 4294967296) |||
              ((((u >>> 16) % 256) <<< 16) % 4294967296) |||
              ((((u >>> 8) % 256) <<< 8) % 4294967296) ||| u % 256 = u := by
            show ((((u >>> 24) % 256) <<< 24) % 2 ^ 32) |||
              ((((u >>> 16) % 256) <<< 16) % 2 ^ 32) |||
              ((((u >>> 8) % 256) <<< 8) % 2 ^ 32) ||| u % 256 = u
            rw [modLor4 ((u >>> 24) % 256) ((u >>> 16) % 256) ((u >>> 8) % 256)
              (u % 256) (by omega) (by omega) (by omega) (by omega)]
            simp only [Nat.shiftRight_eq_div_pow]
            omega
          have hb : (32 * m + 26) % 256 = 32 * m + 26 := Nat.mod_eq_of_lt (by omega)
          have hmaj : (32 * m + 26) >>> 5 = m := by rw [Nat.shiftRight_eq_div_pow]; omega
          have haddl : (32 * m + 26) % 32 = 26 := by omega
          have hcode : codeOf u = 26 := by
            rw [codeOf, if_neg h24, if_neg h8, if_neg h16, if_pos h32]
          have hwa : waOf u = 4 := by
            rw [waOf, if_neg h24, if_neg h8, if_neg h16, if_pos h32]
          have hic : ¬(((32 * m + 26 : Nat) : Int) < 0) := not_lt.mpr (Int.natCast_nonneg _)
          have hlen : ¬(rest.length + 1 + 1 + 1 + 1 < 4) := by omega
          have q3 : (u >>> 24) % 256 % 256 = (u >>> 24) % 256 := by omega
          have q2 : (u >>> 16) % 256 % 256 = (u >>> 16) % 256 := by omega
          have q1 : (u >>> 8) % 256 % 256 = (u >>> 8) % 256 := by omega
          have q0 : u % 256 % 256 = u % 256 := by omega
          simp only [writeTypedInt, if_neg h24, if_neg h8, if_neg h16, if_pos h32,
            List.cons_append, List.nil_append]
          simp only [readDataType, blockStart, readByte, initialReader, hb]
          simp only [if_true, if_neg hic, Int.toNat_natCast, hmaj, haddl, hcode, hwa]
          simp [phaseAddl, blockAddl, phaseWait, blockWait, phaseReadValue, blockReadValue,
            phaseDetermine, readByte, hlen, u32ofInt_natCast_mod256, q3, q2, q1, q0, hval]
        · have hval : ((((u >>> 56) % 256) <<< 56) % 18446744073709551616) |||
              ((((u >>> 48) % 256) <<< 48) % 18446744073709551616) |||
              ((((u >>> 40) % 256) <<< 40) % 18446744073709551616) |||
              ((((u >>> 32) % 256) <<< 32) % 18446744073709551616) |||
              ((((u >>> 24) % 256) <<< 24) % 18446744073709551616) |||
              ((((u >>> 16) % 256) <<< 16) % 18446744073709551616) |||
              ((((u >>> 8) % 256) <<< 8) % 18446744073709551616) ||| u % 256 = u := by
            show ((((u >>> 56) % 256) <<< 56) % 2 ^ 64) |||
              ((((u >>> 48) % 256) <<< 48) % 2 ^ 64) |||
              ((((u >>> 40) % 256) <<< 40) % 2 ^ 64) |||
              ((((u >>> 32) % 256) <<< 32) % 2 ^ 64) |||
              ((((u >>> 24) % 256) <<< 24) % 2 ^ 64) |||
              ((((u >>> 16) % 256) <<< 16) % 2 ^ 64) |||
              ((((u >>> 8) % 256) <<< 8) % 2 ^ 64) ||| u % 256 = u
            rw [modLor8 ((u >>> 56) % 256) ((u >>> 48) % 256) ((u >>> 40) % 256)
              ((u >>> 32) % 256) ((u >>> 24) % 256) ((u >>> 16) % 256) ((u >>> 8) % 256)
              (u % 256) (by omega) (by omega) (by omega) (by omega) (by omega) (by omega)
              (by omega) (by omega)]
            simp only [Nat.shiftRight_eq_div_pow]
            omega
          have hb : (32 * m + 27) % 256 = 32 * m + 27 := Nat.mod_eq_of_lt (by omega)
          have hmaj : (32 * m + 27) >>> 5 = m := by rw [Nat.shiftRight_eq_div_pow]; omega
          have haddl : (32 * m + 27) % 32 = 27 := by omega
          have hcode : codeOf u = 27 := by
            rw [codeOf, if_neg h24, if_neg h8, if_neg h16, if_neg h32]
          have hwa : waOf u = 8 := by
            rw [waOf, if_neg h24, if_neg h8, if_neg h16, if_neg h32]
          have hic : ¬(((32 * m + 27 : Nat) : Int) < 0) := not_lt.mpr (Int.natCast_nonneg _)
          have hlen : ¬(rest.length + 1 + 1 + 1 + 1 + 1 + 1 + 1 + 1 < 8) := by omega
          have q7 : (u >>> 56) % 256 % 256 = (u >>> 56) % 256 := by omega
          have q6 : (u >>> 48) % 256 % 256 = (u >>> 48) % 256 := by omega
          have q5 : (u >>> 40) % 256 % 256 = (u >>> 40) % 256 := by omega
          have q4 : (u >>> 32) % 256 % 256 = (u >>> 32) % 256 := by omega
          have q3 : (u >>> 24) % 256 % 256 = (u >>> 24) % 256 := by omega
          have q2 : (u >>> 16) % 256 % 256 = (u >>> 16) % 256 := by omega
          have q1 : (u >>> 8) % 256 % 256 = (u >>> 8) % 256 := by omega
          have q0 : u % 256 % 256 = u % 256 := by omega
          simp only [writeTypedInt, if_neg h24, if_neg h8, if_neg h16, if_neg h32,
            List.cons_append, List.nil_append]
          simp only [readDataType, blockStart, readByte, initialReader, hb]
          simp only [if_true, if_neg hic, Int.toNat_natCast, hmaj, haddl, hcode, hwa]
          simp [phaseAddl, blockAddl, phaseWait, blockWait, phaseReadValue, blockReadValue,
            phaseDetermine, readByte, hlen, u64ofInt_natCast_mod256, q7, q6, q5, q4, q3, q2, q1, q0, hval]

/-!  Claim theorems. -/

/-- C8: after any `readDataType` call (indeed in every Reader state),
`getBoolean()` returns true iff the major type is 7 and either the
additional info is 21, or the additional info is 24 with argument 21;
in every other state (including addl 20 and the one-byte form with
argument 20) it returns false. -/
theorem c8_getBoolean_iff (r : ReaderState) :
    getBoolean r = true ↔
      r.majorType = 7 ∧ (r.addlInfo = 21 ∨ (r.addlInfo = 24 ∧ r.value = 21)) := by
  unfold getBoolean
  split_ifs with h1 h2 h3 <;> simp_all <;> tauto

/-- C10: `getDouble()` returns exactly 0.0 whenever the last decoded item
is not a float item (major type not 7, or additional info outside
{25, 26, 27}), and `getFloat()` is always `getDouble()` passed through the
`double → float` narrowing conversion. -/
theorem c10_getDouble_default (r : ReaderState) (narrow : DVal → DVal) :
    ((r.majorType ≠ 7 ∨ (r.addlInfo ≠ 25 ∧ r.addlInfo ≠ 26 ∧ r.addlInfo ≠ 27)) →
      getDouble r = DVal.finite 0) ∧
    getFloat narrow r = narrow (getDouble r) := by
  refine ⟨fun h => ?_, rfl⟩
  unfold getDouble
  rcases h with h | ⟨h25, h26, h27⟩
  · rw [if_pos h]
  · by_cases h7 : r.majorType ≠ 7
    · rw [if_pos h7]
    · rw [if_neg h7, if_neg h25, if_neg h26, if_neg h27]

/-- Witness for C10 at the freshly constructed Reader. -/
theorem c10_witness :
    (initialReader.majorType ≠ 7 ∨
      (initialReader.addlInfo ≠ 25 ∧ initialReader.addlInfo ≠ 26 ∧
        initialReader.addlInfo ≠ 27)) ∧
    getDouble initialReader = DVal.finite 0 ∧
    getFloat id initialReader = id (getDouble initialReader) := by
  have h := c10_getDouble_default initialReader id
  exact ⟨Or.inl (by decide), h.1 (Or.inl (by decide)), h.2⟩

/-- C4: the argument encoder `writeTypedInt` (used by `writeUnsignedInt`,
`writeInt`, `writeTag`, `beginBytes/Text/Array/Map`) emits exactly one of
the five argument widths {0 (embedded), 1, 2, 4, 8 bytes}, and the width
emitted is the smallest of the five that can represent the argument. -/
theorem c4_shortest_width (mt u : Nat) (hu : u < 2 ^ 64) :
    (writeUnsignedInt u = writeTypedInt (kUnsignedInt <<< 5) u ∧
      writeTag u = writeTypedInt (kTag <<< 5) u ∧
      beginBytes u = writeTypedInt (kBytes <<< 5) u ∧
      beginText u = writeTypedInt (kText <<< 5) u ∧
      beginArray u = writeTypedInt (kArray <<< 5) u ∧
      beginMap u = writeTypedInt (kMap <<< 5) u) ∧
    ∃ w, w ∈ ([0, 1, 2, 4, 8] : List Nat) ∧ (writeTypedInt mt u).length = w + 1 ∧
      canRepresent w u ∧
      ∀ w', w' ∈ ([0, 1, 2, 4, 8] : List Nat) → canRepresent w' u → w ≤ w' := by
  refine ⟨⟨rfl, rfl, rfl, rfl, rfl, rfl⟩, ?_⟩
  by_cases h24 : u < 24
  · exact ⟨0, by norm_num, by simp [writeTypedInt, h24], by simp [canRepresent, h24],
      fun w' _ _ => Nat.zero_le w'⟩
  · by_cases h8 : u < 256
    · refine ⟨1, by norm_num, by simp [writeTypedInt, h24, h8],
        by simp [canRepresent]; omega, ?_⟩
      intro w' hw' hc
      simp at hw'
      rcases hw' with rfl | rfl | rfl | rfl | rfl <;> simp [canRepresent] at hc <;> omega
    · by_cases h16 : u < 65536
      · refine ⟨2, by norm_num, by simp [writeTypedInt, h24, h8, h16],
          by simp [canRepresent]; omega, ?_⟩
        intro w' hw' hc
        simp at hw'
        rcases hw' with rfl | rfl | rfl | rfl | rfl <;> simp [canRepresent] at hc <;> omega
      · by_cases h32 : u < 4294967296
        · refine ⟨4, by norm_num, by simp [writeTypedInt, h24, h8, h16, h32],
            by simp [canRepresent]; omega, ?_⟩
          intro w' hw' hc
          simp at hw'
          rcases hw' with rfl | rfl | rfl | rfl | rfl <;> simp [canRepresent] at hc <;> omega
        · refine ⟨8, by norm_num, by simp [writeTypedInt, h24, h8, h16, h32],
            by simp [canRepresent]; omega, ?_⟩
          intro w' hw' hc
          simp at hw'
          rcases hw' with rfl | rfl | rfl | rfl | rfl <;> simp [canRepresent] at hc <;> omega

/-- Witness for C4 at `mt = 0`, `u = 1000000` (the 4-byte width). -/
theorem c4_witness :
    (1000000 : Nat) < 2 ^ 64 ∧
    ∃ w, w ∈ ([0, 1, 2, 4, 8] : List Nat) ∧
      (writeTypedInt 0 1000000).length = w + 1 ∧ canRepresent w 1000000 ∧
      ∀ w', w' ∈ ([0, 1, 2, 4, 8] : List Nat) → canRepresent w' 1000000 → w ≤ w' :=
  ⟨by norm_num, (c4_shortest_width 0 1000000 (by norm_num)).2⟩

/-- C9: for 24 ≤ v ≤ 31, `writeSimpleValue(v)` emits `F8 v`, which its own
checker rejects (−1) and which the Reader reports as a syntax error of
kind BadSimpleValue. -/
theorem c9_writeSimpleValue_malformed (v : Nat) (h1 : 24 ≤ v) (h2 : v ≤ 31) :
    writeSimpleValue v = [0xF8, v] ∧
    isWellFormedBool [0xF8, v] = false ∧
    (isWellFormedFrom false [0xF8, v]).1 = -1 ∧
    (readDataType initialReader [0xF8, v]).1 = DataType.kSyntaxError ∧
    getSyntaxError (readDataType initialReader [0xF8, v]).2.1 =
      SyntaxError.kBadSimpleValue := by
  interval_cases v <;> exact ⟨rfl, rfl, rfl, rfl, rfl⟩

/-- Witness for C9 at `v = 24`. -/
theorem c9_witness :
    24 ≤ 24 ∧ (24 : Nat) ≤ 31 ∧ writeSimpleValue 24 = [0xF8, 24] ∧
    isWellFormedBool [0xF8, 24] = false := by
  have h := c9_writeSimpleValue_malformed 24 (by norm_num) (by norm_num)
  exact ⟨by norm_num, by norm_num, h.1, h.2.1⟩

lemma read_half (b1 b2 : Nat) (rest : List Nat) (h1 : b1 < 256) (h2 : b2 < 256) :
    readDataType initialReader (0xF9 :: b1 :: b2 :: rest) =
      (DataType.kFloat,
        ⟨RState.kStart, (0xF9 : Int), b1 * 2 ^ 8 + b2, SyntaxError.kNoError, 7, 25, 2⟩,
        rest) := by
  have hb1 : b1 % 256 = b1 := Nat.mod_eq_of_lt h1
  have hb2 : b2 % 256 = b2 := Nat.mod_eq_of_lt h2
  have q1 : b1 % 65536 = b1 := by omega
  have q2 : b2 % 65536 = b2 := by omega
  have hlen : ¬(rest.length + 1 + 1 < 2) := by omega
  have hval : (b1 <<< 8) ||| b2 = b1 * 2 ^ 8 + b2 := lor2_bytes b1 b2 h1 h2
  simp [readDataType, blockStart, readByte, phaseAddl, blockAddl, phaseWait, blockWait,
    phaseReadValue, blockReadValue, phaseDetermine, blockDetermine, initialReader,
    u16ofInt_natCast, u16ofInt_natCast_mod256, hb1, hb2, q1, q2, hlen, hval]

lemma getDouble_half (hv : Nat) (hh : hv < 2 ^ 16) :
    getDouble ⟨RState.kStart, (0xF9 : Int), hv, SyntaxError.kNoError, 7, 25, 2⟩ =
      halfSpec hv := by
  have hm : hv % 65536 = hv := by omega
  have hs : decide ((32768 : Nat) ≤ hv) = hv.testBit 15 := by
    rw [Nat.testBit_to_div_mod]
    have hiff : (32768 : Nat) ≤ hv ↔ hv / 2 ^ 15 % 2 = 1 := by omega
    exact decide_eq_decide.mpr hiff
  have hexp : ∀ z : ℤ, z - 15 - 10 = z - 25 := fun z => by ring
  have hq : ((2 : ℚ) ^ 10) = 1024 := by norm_num
  by_cases he0 : (hv >>> 10) % 32 = 0
  · simp [getDouble, halfSpec, hm, he0, hs, hq]
  · by_cases he31 : (hv >>> 10) % 32 = 31
    · simp [getDouble, halfSpec, hm, he0, he31, hs, hq]
    · have hlt : (hv >>> 10) % 32 < 31 := by omega
      simp [getDouble, halfSpec, hm, he0, he31, hlt, hs, hexp, hq]

/-- C7: a half-precision float item (F9 plus big-endian 16-bit payload `h`)
is read as `kFloat`, and `getDouble()` returns exactly the value of the
claim's case split on sign / exponent / mantissa (`halfSpec`); in
particular the bytes F9 3C 00 decode to exactly 1.0. -/
theorem c7_half_precision (h : Nat) (hh : h < 2 ^ 16) :
    (readDataType initialReader [0xF9, h >>> 8, h % 256]).1 = DataType.kFloat ∧
    getDouble (readDataType initialReader [0xF9, h >>> 8, h % 256]).2.1 = halfSpec h ∧
    getDouble (readDataType initialReader [0xF9, 0x3C, 0x00]).2.1 = DVal.finite 1 := by
  have hb1 : h >>> 8 < 256 := by rw [Nat.shiftRight_eq_div_pow]; omega
  have hrd := read_half (h >>> 8) (h % 256) [] hb1 (by omega)
  have hvv : (h >>> 8) * 2 ^ 8 + h % 256 = h := by rw [Nat.shiftRight_eq_div_pow]; omega
  rw [hvv] at hrd
  have hrd2 := read_half 0x3C 0x00 [] (by norm_num) (by norm_num)
  refine ⟨?_, ?_, ?_⟩
  · rw [hrd]
  · rw [hrd]
    exact getDouble_half h hh
  · rw [hrd2]
    have h1 : (0x3C * 2 ^ 8 + 0 : Nat) = 15360 := by norm_num
    rw [h1, getDouble_half 15360 (by norm_num)]
    have h2 : ((15360 : Nat) >>> 10) % 32 = 15 := by decide
    have h3 : ¬(15360 : Nat).testBit 15 := by decide
    simp [halfSpec, ldexpQ, copysignQ, h2, h3]
    norm_num

/-- Witness for C7 at `h = 0x3C00`. -/
theorem c7_witness :
    (0x3C00 : Nat) < 2 ^ 16 ∧
    getDouble (readDataType initialReader [0xF9, 0x3C00 >>> 8, 0x3C00 % 256]).2.1 =
      halfSpec 0x3C00 :=
  ⟨by norm_num, (c7_half_precision 0x3C00 (by norm_num)).2.1⟩

lemma int_shiftRight_63 (i : Int) (hlo : -(2 ^ 63) ≤ i) (hhi : i < 2 ^ 63) :
    i >>> (63 : Int) = if i < 0 then -1 else 0 := by
  cases i with
  | ofNat n =>
    rw [Int.ofNat_eq_natCast] at hhi ⊢
    have hn' : n < 2 ^ 63 := by exact_mod_cast hhi
    rw [if_neg (not_lt.mpr (Int.natCast_nonneg n))]
    show ((n : Int)) >>> ((63 : Int)) = 0
    rw [show (63 : Int) = ((63 : Nat) : Int) by norm_num, Int.shiftRight_coe_nat,
      Nat.shiftRight_eq_div_pow, Nat.div_eq_of_lt hn']
    rfl
  | negSucc n =>
    have hn' : n < 2 ^ 63 := by
      have := Int.negSucc_eq n
      omega
    rw [if_pos (Int.negSucc_lt_zero n)]
    rw [show (63 : Int) = ((63 : Nat) : Int) by norm_num, Int.shiftRight_negSucc,
      Nat.shiftRight_eq_div_pow, Nat.div_eq_of_lt hn']
    rfl

/-- The branchless sign handling of `writeInt` is the claim's case split. -/
lemma writeInt_eq (i : Int) (hlo : -(2 ^ 63) ≤ i) (hhi : i < 2 ^ 63) :
    writeInt i = if 0 ≤ i then writeTypedInt 0x00 i.toNat
                 else writeTypedInt 0x20 (-1 - i).toNat := by
  simp only [writeInt]
  rw [int_shiftRight_63 i hlo hhi]
  by_cases hneg : i < 0
  · rw [if_pos hneg, if_neg (by omega)]
    have hu : u64ofInt (-1) = 2 ^ 64 - 1 := by unfold u64ofInt; omega
    rw [hu]
    have hmt : (2 ^ 64 - 1 : Nat) &&& (kNegativeInt <<< 5) = 0x20 := by decide
    rw [hmt]
    have hui : u64ofInt i = (i + 2 ^ 64).toNat := by unfold u64ofInt; omega
    rw [hui]
    have hlt : (i + 2 ^ 64).toNat < 2 ^ 64 := by omega
    rw [xor_two_pow_sub_one 64 _ hlt]
    congr 1
    omega
  · rw [if_neg hneg, if_pos (by omega)]
    have hu : u64ofInt 0 = 0 := by unfold u64ofInt; omega
    rw [hu]
    have hmt : (0 : Nat) &&& (kNegativeInt <<< 5) = 0x00 := by decide
    rw [hmt]
    have hui : u64ofInt i = i.toNat := by unfold u64ofInt; omega
    rw [hui, Nat.zero_xor]

/-- C1: `writeInt(i)` equals the case-split encoding (UnsignedInt head for
i ≥ 0, NegativeInt head with argument −1−i for i < 0), and running the
Reader on the emitted bytes yields UnsignedInt with argument i when
i ≥ 0, and NegativeInt with argument −1−i — from which `getInt()`
returns i — when i < 0. -/
theorem c1_writeInt_roundtrip (i : Int) (hlo : -(2 ^ 63) ≤ i) (hhi : i < 2 ^ 63) :
    (writeInt i = if 0 ≤ i then writeTypedInt 0x00 i.toNat
                  else writeTypedInt 0x20 (-1 - i).toNat) ∧
    (0 ≤ i → (readDataType initialReader (writeInt i)).1 = DataType.kUnsignedInt ∧
      getUnsignedInt (readDataType initialReader (writeInt i)).2.1 = i.toNat) ∧
    (i < 0 → (readDataType initialReader (writeInt i)).1 = DataType.kNegativeInt ∧
      (readDataType initialReader (writeInt i)).2.1.value = (-1 - i).toNat ∧
      getInt (readDataType initialReader (writeInt i)).2.1 = i) := by
  have heq := writeInt_eq i hlo hhi
  refine ⟨heq, fun hpos => ?_, fun hneg => ?_⟩
  · rw [heq, if_pos hpos]
    have h0 : (0x00 : Nat) = 32 * 0 := by norm_num
    have hrd := read_typed 0 i.toNat [] (by norm_num) (by omega)
    rw [List.append_nil] at hrd
    rw [h0, hrd]
    constructor
    · simp [phaseDetermine, blockDetermine]
    · simp [phaseDetermine, blockDetermine, getUnsignedInt]
  · rw [heq, if_neg (by omega)]
    have h1 : (0x20 : Nat) = 32 * 1 := by norm_num
    have hlt : (-1 - i).toNat < 2 ^ 64 := by omega
    have hrd := read_typed 1 (-1 - i).toNat [] (by norm_num) hlt
    rw [List.append_nil] at hrd
    rw [h1, hrd]
    refine ⟨?_, ?_, ?_⟩
    · simp [phaseDetermine, blockDetermine]
    · simp [phaseDetermine, blockDetermine]
    · simp [phaseDetermine, blockDetermine, getInt, int64ofUInt64]
      omega

/-- Witness for C1 at `i = -1000`. -/
theorem c1_witness :
    -(2 ^ 63) ≤ (-1000 : Int) ∧ (-1000 : Int) < 2 ^ 63 ∧
    (readDataType initialReader (writeInt (-1000))).1 = DataType.kNegativeInt ∧
    getInt (readDataType initialReader (writeInt (-1000))).2.1 = -1000 := by
  have h := c1_writeInt_roundtrip (-1000) (by norm_num) (by norm_num)
  exact ⟨by norm_num, by norm_num, (h.2.2 (by norm_num)).1, (h.2.2 (by norm_num)).2.2⟩

/-- Unfolding of the checker on a definite-length Map header with
argument `n` written by the argument encoder. -/
lemma map_header_unfold (f n : Nat) (rest : List Nat) (hn : n < 2 ^ 64) :
    isWellFormedAux (f + 1) false (writeTypedInt 0xA0 n ++ rest) =
      (if n ≠ 0 ∧ (2 * n) % 2 ^ 64 ≤ n then ((-1 : Int), rest)
       else
         (fun p : Int × List Nat => if p.1 < 0 then ((-1 : Int), p.2) else ((5 : Int), p.2))
           (checkChildren (fun t => isWellFormedAux f false t) (2 * n) rest)) := by
  by_cases h24 : n < 24
  · have hb : (160 + n) % 256 = 160 + n := by omega
    have hmaj : (160 + n) >>> 5 = 5 := by rw [Nat.shiftRight_eq_div_pow]; omega
    have hai : (160 + n) % 32 = n := by omega
    have hc1 : ¬(n = 28 ∨ n = 29 ∨ n = 30) := by omega
    have hc2 : ¬n = 31 := by omega
    have hc3 : ¬n = 24 := by omega
    have hc4 : ¬n = 25 := by omega
    have hc5 : ¬n = 26 := by omega
    have hc6 : ¬n = 27 := by omega
    simp only [writeTypedInt, if_pos h24, List.cons_append, List.nil_append]
    simp only [isWellFormedAux, hb, hmaj, hai]
    simp [hc1, hc2, hc3, hc4, hc5, hc6]
    by_cases hcond : n ≠ 0 ∧ (2 * n) % 18446744073709551616 ≤ n
    · simp [hcond]
    · have hmod : (2 * n) % 18446744073709551616 = 2 * n := by omega
      simp [hcond, hmod]
  · by_cases h8 : n < 2 ^ 8
    · have hq : n % 256 % 256 = n := by omega
      have hw : writeTypedInt 0xA0 n ++ rest = 184 :: n % 256 :: rest := by
        simp only [writeTypedInt]
        rw [if_neg h24, if_pos h8]
        norm_num
      rw [hw]
      have step : isWellFormedAux (f + 1) false (184 :: n % 256 :: rest) =
          (if n % 256 % 256 ≠ 0 ∧ (2 * (n % 256 % 256)) % 2 ^ 64 ≤ n % 256 % 256
           then ((-1 : Int), rest)
           else
             (fun p : Int × List Nat => if p.1 < 0 then ((-1 : Int), p.2) else ((5 : Int), p.2))
               (checkChildren (fun t => isWellFormedAux f false t)
                 ((2 * (n % 256 % 256)) % 2 ^ 64) rest)) := rfl
      rw [step, hq]
      by_cases hcond : n ≠ 0 ∧ (2 * n) % 2 ^ 64 ≤ n
      · rw [if_pos hcond, if_pos hcond]
      · have hmod : (2 * n) % 2 ^ 64 = 2 * n := by omega
        rw [if_neg hcond, if_neg hcond, hmod]
    · by_cases h16 : n < 2 ^ 16
      · have hval : ((((n >>> 8) % 256 % 256) <<< 8) ||| (n % 256 % 256)) % 2 ^ 16 = n := by
          have e1 : (n >>> 8) % 256 % 256 = (n >>> 8) % 256 := by omega
          have e0 : n % 256 % 256 = n % 256 := by omega
          rw [e1, e0, lor2_bytes ((n >>> 8) % 256) (n % 256) (by omega) (by omega)]
          simp only [Nat.shiftRight_eq_div_pow]
          omega
        have hw : writeTypedInt 0xA0 n ++ rest =
            185 :: (n >>> 8) % 256 :: n % 256 :: rest := by
          simp only [writeTypedInt]
          rw [if_neg h24, if_neg h8, if_pos h16]
          norm_num
        rw [hw]
        have step : isWellFormedAux (f + 1) false
            (185 :: (n >>> 8) % 256 :: n % 256 :: rest) =
            (if (((((n >>> 8) % 256 % 256) <<< 8) ||| (n % 256 % 256)) % 2 ^ 16) ≠ 0 ∧
                (2 * (((((n >>> 8) % 256 % 256) <<< 8) ||| (n % 256 % 256)) % 2 ^ 16)) % 2 ^ 64 ≤
                  ((((n >>> 8) % 256 % 256) <<< 8) ||| (n % 256 % 256)) % 2 ^ 16
             then ((-1 : Int), rest)
             else
               (fun p : Int × List Nat =>
                   if p.1 < 0 then ((-1 : Int), p.2) else ((5 : Int), p.2))
                 (checkChildren (fun t => isWellFormedAux f false t)
                   ((2 * (((((n >>> 8) % 256 % 256) <<< 8) ||| (n % 256 % 256)) % 2 ^ 16)) %
                     2 ^ 64) rest)) := rfl
        rw [step, hval]
        by_cases hcond : n ≠ 0 ∧ (2 * n) % 2 ^ 64 ≤ n
        · rw [if_pos hcond, if_pos hcond]
        · have hmod : (2 * n) % 2 ^ 64 = 2 * n := by omega
          rw [if_neg hcond, if_neg hcond, hmod]
      · by_cases h32 : n < 2 ^ 32
        · have hval : (((n >>> 24) % 256 % 256) <<< 24 ||| ((n >>> 16) % 256 % 256) <<< 16 |||
              ((n >>> 8) % 256 % 256) <<< 8 ||| (n % 256 % 256)) % 2 ^ 32 = n := by
            have e3 : (n >>> 24) % 256 % 256 = (n >>> 24) % 256 := by omega
            have e2 : (n >>> 16) % 256 % 256 = (n >>> 16) % 256 := by omega
            have e1 : (n >>> 8) % 256 % 256 = (n >>> 8) % 256 := by omega
            have e0 : n % 256 % 256 = n % 256 := by omega
            rw [e3, e2, e1, e0, lor4_bytes ((n >>> 24) % 256) ((n >>> 16) % 256)
              ((n >>> 8) % 256) (n % 256) (by omega) (by omega) (by omega) (by omega)]
            simp only [Nat.shiftRight_eq_div_pow]
            omega
          have hw : writeTypedInt 0xA0 n ++ rest =
              186 :: (n >>> 24) % 256 :: (n >>> 16) % 256 :: (n >>> 8) % 256 ::
                n % 256 :: rest := by
            simp only [writeTypedInt]
            rw [if_neg h24, if_neg h8, if_neg h16, if_pos h32]
            norm_num
          rw [hw]
          have step : isWellFormedAux (f + 1) false
              (186 :: (n >>> 24) % 256 :: (n >>> 16) % 256 :: (n >>> 8) % 256 ::
                n % 256 :: rest) =
              (if ((((n >>> 24) % 256 % 256) <<< 24 ||| ((n >>> 16) % 256 % 256) <<< 16 |||
                    ((n >>> 8) % 256 % 256) <<< 8 ||| (n % 256 % 256)) % 2 ^ 32) ≠ 0 ∧
                  (2 * ((((n >>> 24) % 256 % 256) <<< 24 ||| ((n >>> 16) % 256 % 256) <<< 16 |||
                    ((n >>> 8) % 256 % 256) <<< 8 ||| (n % 256 % 256)) % 2 ^ 32)) % 2 ^ 64 ≤
                    (((n >>> 24) % 256 % 256) <<< 24 ||| ((n >>> 16) % 256 % 256) <<< 16 |||
                    ((n >>> 8) % 256 % 256) <<< 8 ||| (n % 256 % 256)) % 2 ^ 32
               then ((-1 : Int), rest)
               else
                 (fun p : Int × List Nat =>
                     if p.1 < 0 then ((-1 : Int), p.2) else ((5 : Int), p.2))
                   (checkChildren (fun t => isWellFormedAux f false t)
                     ((2 * ((((n >>> 24) % 256 % 256) <<< 24 |||
                        ((n >>> 16) % 256 % 256) <<< 16 |||
                        ((n >>> 8) % 256 % 256) <<< 8 ||| (n % 256 % 256)) % 2 ^ 32)) %
                       2 ^ 64) rest)) := rfl
          rw [step, hval]
          by_cases hcond : n ≠ 0 ∧ (2 * n) % 2 ^ 64 ≤ n
          · rw [if_pos hcond, if_pos hcond]
          · have hmod : (2 * n) % 2 ^ 64 = 2 * n := by omega
            rw [if_neg hcond, if_neg hcond, hmod]
        · have hv1 : (((n >>> 56) % 256 % 256) <<< 24 ||| ((n >>> 48) % 256 % 256) <<< 16 |||
              ((n >>> 40) % 256 % 256) <<< 8 ||| ((n >>> 32) % 256 % 256)) % 2 ^ 32 =
              n >>> 32 := by
            have e3 : (n >>> 56) % 256 % 256 = (n >>> 56) % 256 := by omega
            have e2 : (n >>> 48) % 256 % 256 = (n >>> 48) % 256 := by omega
            have e1 : (n >>> 40) % 256 % 256 = (n >>> 40) % 256 := by omega
            have e0 : (n >>> 32) % 256 % 256 = (n >>> 32) % 256 := by omega
            rw [e3, e2, e1, e0, lor4_bytes ((n >>> 56) % 256) ((n >>> 48) % 256)
              ((n >>> 40) % 256) ((n >>> 32) % 256) (by omega) (by omega) (by omega)
              (by omega)]
            simp only [Nat.shiftRight_eq_div_pow]
            omega
          have hv2 : (((n >>> 24) % 256 % 256) <<< 24 ||| ((n >>> 16) % 256 % 256) <<< 16 |||
              ((n >>> 8) % 256 % 256) <<< 8 ||| (n % 256 % 256)) % 2 ^ 32 =
              n % 2 ^ 32 := by
            have e3 : (n >>> 24) % 256 % 256 = (n >>> 24) % 256 := by omega
            have e2 : (n >>> 16) % 256 % 256 = (n >>> 16) % 256 := by omega
            have e1 : (n >>> 8) % 256 % 256 = (n >>> 8) % 256 := by omega
            have e0 : n % 256 % 256 = n % 256 := by omega
            rw [e3, e2, e1, e0, lor4_bytes ((n >>> 24) % 256) ((n >>> 16) % 256)
              ((n >>> 8) % 256) (n % 256) (by omega) (by omega) (by omega) (by omega)]
            simp only [Nat.shiftRight_eq_div_pow]
            omega
          have hval : (((n >>> 32) <<< 32) % 2 ^ 64) ||| n % 2 ^ 32 = n := by
            have hd : n >>> 32 = n / 2 ^ 32 := by rw [Nat.shiftRight_eq_div_pow]
            have hm : ((n >>> 32) <<< 32) % 2 ^ 64 = (n >>> 32) <<< 32 :=
              Nat.mod_eq_of_lt (by rw [Nat.shiftLeft_eq, hd]; omega)
            rw [hm, shiftLeft_lor_eq_add (n >>> 32) (n % 2 ^ 32) 32 (by omega), hd]
            omega
          have hw : writeTypedInt 0xA0 n ++ rest =
              187 :: (n >>> 56) % 256 :: (n >>> 48) % 256 :: (n >>> 40) % 256 ::
                (n >>> 32) % 256 :: (n >>> 24) % 256 :: (n >>> 16) % 256 ::
                (n >>> 8) % 256 :: n % 256 :: rest := by
            simp only [writeTypedInt]
            rw [if_neg h24, if_neg h8, if_neg h16, if_neg h32]
            norm_num
          rw [hw]
          have step : isWellFormedAux (f + 1) false
              (187 :: (n >>> 56) % 256 :: (n >>> 48) % 256 :: (n >>> 40) % 256 ::
                (n >>> 32) % 256 :: (n >>> 24) % 256 :: (n >>> 16) % 256 ::
                (n >>> 8) % 256 :: n % 256 :: rest) =
              (fun val : Nat =>
                  if val ≠ 0 ∧ (2 * val) % 2 ^ 64 ≤ val then ((-1 : Int), rest)
                  else
                    (fun p : Int × List Nat =>
                        if p.1 < 0 then ((-1 : Int), p.2) else ((5 : Int), p.2))
                      (checkChildren (fun t => isWellFormedAux f false t)
                        ((2 * val) % 2 ^ 64) rest))
                ((((((n >>> 56) % 256 % 256) <<< 24 ||| ((n >>> 48) % 256 % 256) <<< 16 |||
                    ((n >>> 40) % 256 % 256) <<< 8 ||| ((n >>> 32) % 256 % 256)) % 2 ^ 32)
                    <<< 32 % 2 ^ 64) |||
                  ((((n >>> 24) % 256 % 256) <<< 24 ||| ((n >>> 16) % 256 % 256) <<< 16 |||
                    ((n >>> 8) % 256 % 256) <<< 8 ||| (n % 256 % 256)) % 2 ^ 32)) := rfl
          rw [step, hv1, hv2, hval]
          show (if n ≠ 0 ∧ (2 * n) % 2 ^ 64 ≤ n then ((-1 : Int), rest)
            else
              (fun p : Int × List Nat =>
                  if p.1 < 0 then ((-1 : Int), p.2) else ((5 : Int), p.2))
                (checkChildren (fun t => isWellFormedAux f false t)
                  ((2 * n) % 2 ^ 64) rest)) = _
          by_cases hcond : n ≠ 0 ∧ (2 * n) % 2 ^ 64 ≤ n
          · rw [if_pos hcond, if_pos hcond]
          · have hmod : (2 * n) % 2 ^ 64 = 2 * n := by omega
            rw [if_neg hcond, if_neg hcond, hmod]

/-- C5: the checker rejects a definite Map header with argument `n` exactly
when `n != 0` and `2n mod 2^64 <= n`; consequently every Map header with
`n >= 2^63` is rejected (also through the public entry point), and for
accepted maps the checker recurses on exactly `2n` child items. -/
theorem c5_map_overflow (f n : Nat) (rest : List Nat) (hn : n < 2 ^ 64) :
    (isWellFormedAux (f + 1) false (writeTypedInt 0xA0 n ++ rest) =
      if n ≠ 0 ∧ (2 * n) % 2 ^ 64 ≤ n then ((-1 : Int), rest)
      else
        (fun p : Int × List Nat => if p.1 < 0 then ((-1 : Int), p.2) else ((5 : Int), p.2))
          (checkChildren (fun t => isWellFormedAux f false t) (2 * n) rest)) ∧
    (2 ^ 63 ≤ n → (isWellFormedAux (f + 1) false (writeTypedInt 0xA0 n ++ rest)).1 = -1) ∧
    (2 ^ 63 ≤ n → isWellFormedBool (writeTypedInt 0xA0 n ++ rest) = false) := by
  refine ⟨map_header_unfold f n rest hn, fun hbig => ?_, fun hbig => ?_⟩
  · rw [map_header_unfold f n rest hn, if_pos ⟨by omega, by omega⟩]
  · unfold isWellFormedBool isWellFormedFrom
    rw [map_header_unfold (writeTypedInt 0xA0 n ++ rest).length n rest hn,
      if_pos ⟨by omega, by omega⟩]
    simp

/-- Witness for C5 at `n = 2^63`. -/
theorem c5_witness :
    (2 ^ 63 : Nat) < 2 ^ 64 ∧ 2 ^ 63 ≤ (2 ^ 63 : Nat) ∧
    (isWellFormedAux (0 + 1) false (writeTypedInt 0xA0 (2 ^ 63) ++ [])).1 = -1 ∧
    isWellFormedBool (writeTypedInt 0xA0 (2 ^ 63) ++ []) = false := by
  have h := c5_map_overflow 0 (2 ^ 63) [] (by norm_num)
  exact ⟨by norm_num, le_refl _, h.2.1 (le_refl _), h.2.2 (le_refl _)⟩

/-- C3 counterexample: the stream `5F 5F FF FF` is an indefinite-length
Bytes item whose only child is itself an indefinite-length Bytes item;
the claim says the checker must reject it (−1), but the checker accepts
it (returns major type 2), because the loop compares only major types. -/
theorem c3_counterexample :
    (isWellFormedFrom false [0x5F, 0x5F, 0xFF, 0xFF]).1 = 2 ∧
    (isWellFormedFrom false [0x5F, 0x5F, 0xFF, 0xFF]).1 ≠ -1 ∧
    isWellFormedBool [0x5F, 0x5F, 0xFF, 0xFF] = true := by decide

/-- C3 (amended): on an indefinite-length Bytes/Text initial byte the
checker runs the chunk loop, and the loop accepts only if every child
before the terminating Break is reported with exactly the same outer
major type (whether the child is definite- or indefinite-length). -/
theorem c3_indefinite_string_children :
    (∀ (b f : Nat) (rest : List Nat) (breakable : Bool),
        ((b % 256) >>> 5 = 2 ∨ (b % 256) >>> 5 = 3) → b % 32 = 31 →
        isWellFormedAux (f + 1) breakable (b :: rest) =
          strLoop (fun br t => isWellFormedAux f br t) ((b % 256) >>> 5)
            (rest.length + 1) rest) ∧
    (∀ (ck : Bool → List Nat → Int × List Nat) (mt k : Nat) (s s' : List Nat),
        strLoop ck mt k s = ((mt : Int), s') → ChunksOk ck mt s s') := by
  constructor
  · intro b f rest breakable hmaj hai
    rcases hmaj with h2 | h2 <;>
      simp [isWellFormedAux, isIndefiniteWellFormed, hai, h2]
  · intro ck mt k
    induction k with
    | zero =>
      intro s s' h
      exfalso
      have h1 : (-1 : Int) = (mt : Int) := congrArg Prod.fst h
      have h2 : (0 : Int) ≤ (mt : Int) := Int.natCast_nonneg mt
      omega
    | succ k ih =>
      intro s s' h
      rw [strLoop] at h
      rcases hck : ck true s with ⟨t, s₁⟩
      simp only [hck] at h
      by_cases ht2 : t = -2
      · rw [if_pos ht2] at h
        injection h with h1 h2
        refine ChunksOk.brk s s' ?_
        rw [hck, ht2, h2]
      · by_cases ht1 : t = -1
        · rw [if_neg ht2, if_pos ht1] at h
          injection h with h1 h2
          have h2 : (0 : Int) ≤ (mt : Int) := Int.natCast_nonneg mt
          omega
        · by_cases htm : t = (mt : Int)
          · rw [if_neg ht2, if_neg ht1, if_neg (not_not_intro htm)] at h
            subst htm
            exact ChunksOk.chunk s s₁ s' hck (ih s₁ s' h)
          · rw [if_neg ht2, if_neg ht1, if_pos htm] at h
            injection h with h1 h2
            have h2 : (0 : Int) ≤ (mt : Int) := Int.natCast_nonneg mt
            omega

/-- Witness for C3's amended theorem: the dispatch at `b = 0x5F` and the
chunk-sequence extraction on the stream `41 00 FF` (one definite chunk,
then Break). -/
theorem c3_witness :
    ((0x5F % 256) >>> 5 = 2 ∨ (0x5F % 256) >>> 5 = 3) ∧ 0x5F % 32 = 31 ∧
    (isWellFormedAux (0 + 1) false [0x5F] =
      strLoop (fun br t => isWellFormedAux 0 br t) ((0x5F % 256) >>> 5) 1 []) ∧
    ChunksOk (fun br t => isWellFormedAux 3 br t) 2 [0x41, 0x00, 0xFF] [] := by
  refine ⟨Or.inl (by decide), by decide, ?_, ?_⟩
  · exact c3_indefinite_string_children.1 0x5F 0 [] false (Or.inl (by decide)) (by decide)
  · exact c3_indefinite_string_children.2 (fun br t => isWellFormedAux 3 br t) 2 4
      [0x41, 0x00, 0xFF] [] (by decide)

/-- C2 counterexample: after reading the single byte 1C (additional info
28), the Reader reports `kSyntaxError` but its state machine is left in
kAdditionalInfo, not kStart, and the next call re-reports the same error
without consuming the next stream byte (00) — it does not begin decoding a
fresh item. -/
theorem c2_counterexample :
    (readDataType initialReader [0x1C, 0x00]).1 = DataType.kSyntaxError ∧
    ¬(readDataType initialReader [0x1C, 0x00]).2.1.state = RState.kStart ∧
    (readDataType initialReader [0x1C, 0x00]).2.1.state = RState.kAdditionalInfo ∧
    (readDataType (readDataType initialReader [0x1C, 0x00]).2.1
        (readDataType initialReader [0x1C, 0x00]).2.2).1 = DataType.kSyntaxError ∧
    (readDataType (readDataType initialReader [0x1C, 0x00]).2.1
        (readDataType initialReader [0x1C, 0x00]).2.2).2.2 = [0x00] := by
  decide

/-- C2 (amended): errors detected in the kAdditionalInfo phase (reserved
additional info 28/29/30, and additional info 31 on major types 0/1/6)
return `kSyntaxError` with the state machine left in kAdditionalInfo, so
every later call returns the same `kSyntaxError` again without touching
the stream; only the kDetermineType-phase error (BadSimpleValue) returns
with the state machine back in kStart. -/
theorem c2_syntax_error_states :
    (∀ (b : Nat) (s : List Nat), b < 256 →
        (b % 32 = 28 ∨ b % 32 = 29 ∨ b % 32 = 30 ∨
          (b % 32 = 31 ∧ (b >>> 5 = 0 ∨ b >>> 5 = 1 ∨ b >>> 5 = 6))) →
        (readDataType initialReader (b :: s)).1 = DataType.kSyntaxError ∧
        (readDataType initialReader (b :: s)).2.1.state = RState.kAdditionalInfo ∧
        (readDataType initialReader (b :: s)).2.2 = s ∧
        ∀ t, readDataType (readDataType initialReader (b :: s)).2.1 t =
          (DataType.kSyntaxError, (readDataType initialReader (b :: s)).2.1, t)) ∧
    (∀ (v : Nat) (s : List Nat), v < 32 →
        (readDataType initialReader (0xF8 :: v :: s)).1 = DataType.kSyntaxError ∧
        getSyntaxError (readDataType initialReader (0xF8 :: v :: s)).2.1 =
          SyntaxError.kBadSimpleValue ∧
        (readDataType initialReader (0xF8 :: v :: s)).2.1.state = RState.kStart) := by
  constructor
  · intro b s hb hcase
    have hbm : b % 256 = b := Nat.mod_eq_of_lt hb
    have hic : ¬((b : Int) < 0) := by omega
    rcases hcase with h | h | h | ⟨h31, hmaj⟩
    · simp [readDataType, blockStart, readByte, initialReader, phaseAddl, blockAddl,
        hbm, hic, h, Int.toNat_natCast]
    · simp [readDataType, blockStart, readByte, initialReader, phaseAddl, blockAddl,
        hbm, hic, h, Int.toNat_natCast]
    · simp [readDataType, blockStart, readByte, initialReader, phaseAddl, blockAddl,
        hbm, hic, h, Int.toNat_natCast]
    · rcases hmaj with hm | hm | hm <;>
        simp [readDataType, blockStart, readByte, initialReader, phaseAddl, blockAddl,
          hbm, hic, h31, hm, Int.toNat_natCast]
  · intro v s hv
    have hv256 : v % 256 = v := by omega
    have h7 : ((248 : Nat) % 256) >>> 5 = 7 := by decide
    have h24 : (248 : Nat) % 32 = 24 := by decide
    have hv64 : v % 18446744073709551616 = v := by omega
    have hic : ¬((248 : Int) < 0) := by omega
    simp [hic, readDataType, blockStart, readByte, initialReader, phaseAddl, blockAddl,
      phaseWait, blockWait, phaseReadValue, blockReadValue, phaseDetermine,
      blockDetermine, getSyntaxError, u64ofInt_natCast, u64ofInt_natCast_mod256,
      hv256, h7, h24, hv64, hv, Int.toNat_natCast]

/-- Witness for C2's amended theorem at bytes 1C (sticky error in
kAdditionalInfo) and F8 10 (BadSimpleValue, back to kStart). -/
theorem c2_witness :
    (0x1C : Nat) < 256 ∧
    ((0x1C : Nat) % 32 = 28 ∨ (0x1C : Nat) % 32 = 29 ∨ (0x1C : Nat) % 32 = 30 ∨
      ((0x1C : Nat) % 32 = 31 ∧
        ((0x1C : Nat) >>> 5 = 0 ∨ (0x1C : Nat) >>> 5 = 1 ∨ (0x1C : Nat) >>> 5 = 6))) ∧
    (readDataType initialReader [0x1C]).1 = DataType.kSyntaxError ∧
    (readDataType initialReader [0x1C]).2.1.state = RState.kAdditionalInfo ∧
    (0x10 : Nat) < 32 ∧
    (readDataType initialReader [0xF8, 0x10]).2.1.state = RState.kStart := by
  have h1 := c2_syntax_error_states.1 0x1C [] (by norm_num) (Or.inl (by norm_num))
  have h2 := c2_syntax_error_states.2 0x10 [] (by norm_num)
  exact ⟨by norm_num, Or.inl (by norm_num), h1.1, h1.2.1, by norm_num, h2.2.2⟩

lemma blockAddl_shape (r : ReaderState) (s : List Nat)
    (hst : r.state = RState.kAdditionalInfo) :
    (∃ w, (w = 1 ∧ r.addlInfo = 24 ∨ w = 2 ∧ r.addlInfo = 25 ∨
           w = 4 ∧ r.addlInfo = 26 ∨ w = 8 ∧ r.addlInfo = 27) ∧
      blockAddl r s = Except.ok (⟨RState.kWaitAvailable, r.initialByte, r.value,
        r.syntaxError, r.majorType, r.addlInfo, w⟩, s)) ∨
    ((∃ e, blockAddl r s = Except.error (DataType.kSyntaxError, e, s)) ∧
      (r.addlInfo = 28 ∨ r.addlInfo = 29 ∨ r.addlInfo = 30 ∨ r.addlInfo = 31)) ∨
    (blockAddl r s = Except.ok (⟨RState.kReadValue, r.initialByte, r.value,
        r.syntaxError, r.majorType, r.addlInfo, 0⟩, s) ∧
      (r.addlInfo = 31 ∨ ¬(24 ≤ r.addlInfo ∧ r.addlInfo ≤ 31))) := by
  unfold blockAddl
  rw [if_pos hst]
  split
  · rename_i had
    exact Or.inl ⟨1, Or.inl ⟨rfl, had⟩, rfl⟩
  · rename_i had
    exact Or.inl ⟨2, Or.inr (Or.inl ⟨rfl, had⟩), rfl⟩
  · rename_i had
    exact Or.inl ⟨4, Or.inr (Or.inr (Or.inl ⟨rfl, had⟩)), rfl⟩
  · rename_i had
    exact Or.inl ⟨8, Or.inr (Or.inr (Or.inr ⟨rfl, had⟩)), rfl⟩
  · rename_i had
    exact Or.inr (Or.inl ⟨⟨_, rfl⟩, Or.inl had⟩)
  · rename_i had
    exact Or.inr (Or.inl ⟨⟨_, rfl⟩, Or.inr (Or.inl had)⟩)
  · rename_i had
    exact Or.inr (Or.inl ⟨⟨_, rfl⟩, Or.inr (Or.inr (Or.inl had))⟩)
  · rename_i had
    split
    · exact Or.inr (Or.inl ⟨⟨_, rfl⟩, Or.inr (Or.inr (Or.inr had))⟩)
    · exact Or.inr (Or.inl ⟨⟨_, rfl⟩, Or.inr (Or.inr (Or.inr had))⟩)
    · exact Or.inr (Or.inl ⟨⟨_, rfl⟩, Or.inr (Or.inr (Or.inr had))⟩)
    · exact Or.inr (Or.inr ⟨rfl, Or.inl had⟩)
  · rename_i g1 g2 g3 g4 g5 g6 g7 g8
    refine Or.inr (Or.inr ⟨rfl, Or.inr ?_⟩)
    rintro ⟨hlo, hhi⟩
    have hc : r.addlInfo = 24 ∨ r.addlInfo = 25 ∨ r.addlInfo = 26 ∨ r.addlInfo = 27 ∨
        r.addlInfo = 28 ∨ r.addlInfo = 29 ∨ r.addlInfo = 30 ∨ r.addlInfo = 31 := by omega
    rcases hc with h | h | h | h | h | h | h | h
    exacts [g1 h, g2 h, g3 h, g4 h, g5 h, g6 h, g7 h, g8 h]

lemma determine_ne_eos (r : ReaderState) (h : r.state = RState.kDetermineType) :
    (blockDetermine r).1 ≠ DataType.kEOS := by
  unfold blockDetermine
  rw [if_pos h]
  split <;> (try split) <;> (try split) <;> simp

lemma phaseDetermine_ne_eos (r : ReaderState) (s : List Nat)
    (h : r.state = RState.kDetermineType) : (phaseDetermine r s).1 ≠ DataType.kEOS := by
  unfold phaseDetermine
  exact determine_ne_eos r h

lemma phaseReadValue_ne_eos (r : ReaderState) (s : List Nat)
    (h : r.state = RState.kReadValue) : (phaseReadValue r s).1 ≠ DataType.kEOS := by
  unfold phaseReadValue
  apply phaseDetermine_ne_eos
  unfold blockReadValue
  rw [if_pos h]

lemma phaseReadValue_ne_eos_kDT (r : ReaderState) (s : List Nat)
    (h : r.state = RState.kDetermineType) : (phaseReadValue r s).1 ≠ DataType.kEOS := by
  unfold phaseReadValue blockReadValue
  rw [if_neg (by rw [h]; decide)]
  exact phaseDetermine_ne_eos r s h

lemma phaseWait_short (r : ReaderState) (s : List Nat) (h : r.state = RState.kWaitAvailable)
    (hl : s.length < r.waitAvailable) : phaseWait r s = (DataType.kEOS, r, s) := by
  unfold phaseWait blockWait
  rw [if_pos h, if_pos hl]

lemma phaseWait_long_ne_eos (r : ReaderState) (s : List Nat)
    (h : r.state = RState.kWaitAvailable) (hl : ¬s.length < r.waitAvailable) :
    (phaseWait r s).1 ≠ DataType.kEOS := by
  unfold phaseWait blockWait
  rw [if_pos h, if_neg hl]
  exact phaseReadValue_ne_eos _ s rfl

lemma phaseWait_ne_eos_kRV (r : ReaderState) (s : List Nat)
    (h : r.state = RState.kReadValue) : (phaseWait r s).1 ≠ DataType.kEOS := by
  unfold phaseWait blockWait
  rw [if_neg (by rw [h]; decide)]
  exact phaseReadValue_ne_eos r s h

lemma readDataType_kWA (r : ReaderState) (s : List Nat)
    (h : r.state = RState.kWaitAvailable) : readDataType r s = phaseWait r s := by
  have h1 : r.state ≠ RState.kStart := by rw [h]; decide
  have h2 : r.state ≠ RState.kAdditionalInfo := by rw [h]; decide
  simp [readDataType, blockStart, phaseAddl, blockAddl, h1, h2]

lemma readDataType_kAddl (r : ReaderState) (s : List Nat)
    (h : r.state = RState.kAdditionalInfo) : readDataType r s = phaseAddl r s := by
  have h1 : r.state ≠ RState.kStart := by rw [h]; decide
  simp [readDataType, blockStart, h1]

lemma readDataType_kRV (r : ReaderState) (s : List Nat)
    (h : r.state = RState.kReadValue) : readDataType r s = phaseReadValue r s := by
  have h1 : r.state ≠ RState.kStart := by rw [h]; decide
  have h2 : r.state ≠ RState.kAdditionalInfo := by rw [h]; decide
  have h3 : r.state ≠ RState.kWaitAvailable := by rw [h]; decide
  simp [readDataType, blockStart, phaseAddl, blockAddl, phaseWait, blockWait, h1, h2, h3]

lemma readDataType_kDT (r : ReaderState) (s : List Nat)
    (h : r.state = RState.kDetermineType) : readDataType r s = phaseReadValue r s := by
  have h1 : r.state ≠ RState.kStart := by rw [h]; decide
  have h2 : r.state ≠ RState.kAdditionalInfo := by rw [h]; decide
  have h3 : r.state ≠ RState.kWaitAvailable := by rw [h]; decide
  simp [readDataType, blockStart, phaseAddl, blockAddl, phaseWait, blockWait, h1, h2, h3]

lemma phaseAddl_eos (r : ReaderState) (s : List Nat)
    (hst : r.state = RState.kAdditionalInfo)
    (heos : (phaseAddl r s).1 = DataType.kEOS) :
    ∃ w, s.length < w ∧
      ∀ X, phaseAddl r X =
        phaseWait ⟨RState.kWaitAvailable, r.initialByte, r.value, r.syntaxError,
          r.majorType, r.addlInfo, w⟩ X := by
  rcases blockAddl_shape r s hst with ⟨w, hw, hok⟩ | ⟨⟨e, herr⟩, hcond⟩ | ⟨hok, hcond⟩
  · have h1 : phaseAddl r s =
        phaseWait ⟨RState.kWaitAvailable, r.initialByte, r.value, r.syntaxError,
          r.majorType, r.addlInfo, w⟩ s := by
      unfold phaseAddl
      rw [hok]
    rw [h1] at heos
    refine ⟨w, ?_, ?_⟩
    · by_cases hl : s.length <
        (ReaderState.mk RState.kWaitAvailable r.initialByte r.value r.syntaxError
          r.majorType r.addlInfo w).waitAvailable
      · exact hl
      · exact absurd heos (phaseWait_long_ne_eos _ s rfl hl)
    · intro X
      rcases blockAddl_shape r X hst with ⟨w', hw', hok'⟩ | ⟨⟨e', herr'⟩, hcond'⟩ | ⟨hok', hcond'⟩
      · have hww : w' = w := by
          rcases hw with ⟨e1, e2⟩ | ⟨e1, e2⟩ | ⟨e1, e2⟩ | ⟨e1, e2⟩ <;>
            rcases hw' with ⟨f1, f2⟩ | ⟨f1, f2⟩ | ⟨f1, f2⟩ | ⟨f1, f2⟩ <;> omega
        subst hww
        unfold phaseAddl
        rw [hok']
      · exfalso
        rcases hw with ⟨e1, e2⟩ | ⟨e1, e2⟩ | ⟨e1, e2⟩ | ⟨e1, e2⟩ <;> omega
      · exfalso
        rcases hw with ⟨e1, e2⟩ | ⟨e1, e2⟩ | ⟨e1, e2⟩ | ⟨e1, e2⟩ <;>
          rcases hcond' with h | h <;> omega
  · exfalso
    have h1 : phaseAddl r s = (DataType.kSyntaxError, e, s) := by
      unfold phaseAddl
      rw [herr]
    rw [h1] at heos
    exact absurd heos (by simp)
  · exfalso
    have h1 : phaseAddl r s =
        phaseWait ⟨RState.kReadValue, r.initialByte, r.value, r.syntaxError,
          r.majorType, r.addlInfo, 0⟩ s := by
      unfold phaseAddl
      rw [hok]
    rw [h1] at heos
    exact absurd heos (phaseWait_ne_eos_kRV _ s rfl)

lemma phaseAddl_eos_mk (ib : Int) (v : Nat) (se : SyntaxError) (mj ad wa : Nat)
    (s : List Nat)
    (heos : (phaseAddl ⟨RState.kAdditionalInfo, ib, v, se, mj, ad, wa⟩ s).1 =
      DataType.kEOS) :
    ∃ w, s.length < w ∧
      ∀ X, phaseAddl ⟨RState.kAdditionalInfo, ib, v, se, mj, ad, wa⟩ X =
        phaseWait ⟨RState.kWaitAvailable, ib, v, se, mj, ad, w⟩ X := by
  obtain ⟨w, hl, hall⟩ := phaseAddl_eos _ s rfl heos
  exact ⟨w, hl, fun X => hall X⟩

lemma phaseAddl_wa_irrel (ib : Int) (v : Nat) (se : SyntaxError) (mj ad w w' : Nat)
    (s : List Nat) :
    phaseAddl ⟨RState.kAdditionalInfo, ib, v, se, mj, ad, w⟩ s =
    phaseAddl ⟨RState.kAdditionalInfo, ib, v, se, mj, ad, w'⟩ s := rfl

lemma blockStart_cons (ib : Int) (v : Nat) (se : SyntaxError)
    (mj ad wa : Nat) (b : Nat) (X : List Nat) :
    blockStart ⟨RState.kStart, ib, v, se, mj, ad, wa⟩ (b :: X) =
    Except.ok (⟨RState.kAdditionalInfo, ((b % 256 : Nat) : Int), 0,
      SyntaxError.kNoError, (b % 256) >>> 5, (b % 256) % 32, wa⟩, X) := by
  have hic : ¬(((b % 256 : Nat) : Int) < 0) := by omega
  unfold blockStart
  rw [if_pos (show (⟨RState.kStart, ib, v, se, mj, ad, wa⟩ : ReaderState).state =
    RState.kStart from rfl)]
  show (if (((b % 256 : Nat) : Int)) < 0 then _ else _) = _
  rw [if_neg hic]
  rfl

lemma readDataType_start_cons (ib : Int) (v : Nat) (se : SyntaxError)
    (mj ad wa : Nat) (b : Nat) (X : List Nat) :
    readDataType ⟨RState.kStart, ib, v, se, mj, ad, wa⟩ (b :: X) =
    phaseAddl ⟨RState.kAdditionalInfo, ((b % 256 : Nat) : Int), 0,
      SyntaxError.kNoError, (b % 256) >>> 5, (b % 256) % 32, wa⟩ X := by
  unfold readDataType
  rw [blockStart_cons]

lemma readDataType_start_congr (r r' : ReaderState) (s : List Nat)
    (h : r.state = RState.kStart) (h' : r'.state = RState.kStart) :
    readDataType r s = readDataType r' s := by
  obtain ⟨st, ib, v, se, mj, ad, wa⟩ := r
  obtain ⟨st', ib', v', se', mj', ad', wa'⟩ := r'
  have h1 : st = RState.kStart := h
  have h2 : st' = RState.kStart := h'
  subst h1
  subst h2
  cases s with
  | nil => rfl
  | cons b s' =>
    rw [readDataType_start_cons, readDataType_start_cons]
    exact phaseAddl_wa_irrel _ _ _ _ _ wa wa' s'

/-- C6: whenever `readDataType` returns `kEOS` (the stream cannot supply the
bytes needed to finish the current item header), the decode state is
preserved: (a) calling again with no new bytes returns `kEOS` again without
changing the reader or the stream, (b) a reader already waiting for bytes is
returned completely unchanged, and (c) for any continuation `t` of the
stream, resuming from the returned reader on the leftover bytes plus `t`
gives exactly the same outcome as running on the whole input at once. -/
theorem c6_streaming_idempotent (r : ReaderState) (s : List Nat)
    (h : (readDataType r s).1 = DataType.kEOS) :
    readDataType (readDataType r s).2.1 (readDataType r s).2.2 =
      (DataType.kEOS, (readDataType r s).2.1, (readDataType r s).2.2) ∧
    (r.state = RState.kWaitAvailable →
      (readDataType r s).2.1 = r ∧ (readDataType r s).2.2 = s) ∧
    ∀ t, readDataType (readDataType r s).2.1 ((readDataType r s).2.2 ++ t) =
      readDataType r (s ++ t) := by
  obtain ⟨st, ib, v, se, mj, ad, wa⟩ := r
  cases st with
  | kStart =>
    cases s with
    | nil =>
      have ht : readDataType ⟨RState.kStart, ib, v, se, mj, ad, wa⟩ [] =
          (DataType.kEOS,
            ⟨RState.kStart, -1, 0, SyntaxError.kNoError, 0, 0, 0⟩, []) := rfl
      rw [ht]
      refine ⟨rfl, ?_, fun t => ?_⟩
      · intro hk
        exact nomatch (show RState.kStart = RState.kWaitAvailable from hk)
      · exact readDataType_start_congr _ _ _ rfl rfl
    | cons b s₁ =>
      rw [readDataType_start_cons] at h
      obtain ⟨w, hl, hall⟩ := phaseAddl_eos_mk _ _ _ _ _ _ s₁ h
      have hpw : phaseWait ⟨RState.kWaitAvailable, ((b % 256 : Nat) : Int), 0,
          SyntaxError.kNoError, (b % 256) >>> 5, (b % 256) % 32, w⟩ s₁ =
          (DataType.kEOS, ⟨RState.kWaitAvailable, ((b % 256 : Nat) : Int), 0,
            SyntaxError.kNoError, (b % 256) >>> 5, (b % 256) % 32, w⟩, s₁) :=
        phaseWait_short _ _ rfl hl
      have ht : readDataType ⟨RState.kStart, ib, v, se, mj, ad, wa⟩ (b :: s₁) =
          (DataType.kEOS, ⟨RState.kWaitAvailable, ((b % 256 : Nat) : Int), 0,
            SyntaxError.kNoError, (b % 256) >>> 5, (b % 256) % 32, w⟩, s₁) := by
        rw [readDataType_start_cons, hall s₁, hpw]
      rw [ht]
      refine ⟨?_, ?_, fun t => ?_⟩
      case refine_2 =>
        intro hk
        exact nomatch (show RState.kStart = RState.kWaitAvailable from hk)
      · show readDataType ⟨RState.kWaitAvailable, ((b % 256 : Nat) : Int), 0,
            SyntaxError.kNoError, (b % 256) >>> 5, (b % 256) % 32, w⟩ s₁ =
          (DataType.kEOS, ⟨RState.kWaitAvailable, ((b % 256 : Nat) : Int), 0,
            SyntaxError.kNoError, (b % 256) >>> 5, (b % 256) % 32, w⟩, s₁)
        rw [readDataType_kWA _ _ rfl, hpw]
      · show readDataType ⟨RState.kWaitAvailable, ((b % 256 : Nat) : Int), 0,
            SyntaxError.kNoError, (b % 256) >>> 5, (b % 256) % 32, w⟩ (s₁ ++ t) =
          readDataType ⟨RState.kStart, ib, v, se, mj, ad, wa⟩ (b :: (s₁ ++ t))
        rw [readDataType_kWA _ _ rfl, readDataType_start_cons, hall (s₁ ++ t)]
  | kAdditionalInfo =>
    rw [readDataType_kAddl _ _ rfl] at h
    obtain ⟨w, hl, hall⟩ := phaseAddl_eos_mk ib v se mj ad wa s h
    have hpw : phaseWait ⟨RState.kWaitAvailable, ib, v, se, mj, ad, w⟩ s =
        (DataType.kEOS, ⟨RState.kWaitAvailable, ib, v, se, mj, ad, w⟩, s) :=
      phaseWait_short _ _ rfl hl
    have ht : readDataType ⟨RState.kAdditionalInfo, ib, v, se, mj, ad, wa⟩ s =
        (DataType.kEOS, ⟨RState.kWaitAvailable, ib, v, se, mj, ad, w⟩, s) := by
      rw [readDataType_kAddl _ _ rfl, hall s, hpw]
    rw [ht]
    refine ⟨?_, ?_, fun t => ?_⟩
    case refine_2 =>
      intro hk
      exact nomatch (show RState.kAdditionalInfo = RState.kWaitAvailable from hk)
    · show readDataType ⟨RState.kWaitAvailable, ib, v, se, mj, ad, w⟩ s =
        (DataType.kEOS, ⟨RState.kWaitAvailable, ib, v, se, mj, ad, w⟩, s)
      rw [readDataType_kWA _ _ rfl, hpw]
    · show readDataType ⟨RState.kWaitAvailable, ib, v, se, mj, ad, w⟩ (s ++ t) =
        readDataType ⟨RState.kAdditionalInfo, ib, v, se, mj, ad, wa⟩ (s ++ t)
      rw [readDataType_kWA _ _ rfl, readDataType_kAddl _ _ rfl, hall (s ++ t)]
  | kWaitAvailable =>
    rw [readDataType_kWA _ _ rfl] at h
    by_cases hl : s.length < wa
    · have hpw : phaseWait ⟨RState.kWaitAvailable, ib, v, se, mj, ad, wa⟩ s =
          (DataType.kEOS, ⟨RState.kWaitAvailable, ib, v, se, mj, ad, wa⟩, s) :=
        phaseWait_short _ _ rfl hl
      have ht : readDataType ⟨RState.kWaitAvailable, ib, v, se, mj, ad, wa⟩ s =
          (DataType.kEOS, ⟨RState.kWaitAvailable, ib, v, se, mj, ad, wa⟩, s) := by
        rw [readDataType_kWA _ _ rfl, hpw]
      rw [ht]
      exact ⟨ht, fun _ => ⟨rfl, rfl⟩, fun t => rfl⟩
    · exact absurd h (phaseWait_long_ne_eos _ s rfl hl)
  | kReadValue =>
    rw [readDataType_kRV _ _ rfl] at h
    exact absurd h (phaseReadValue_ne_eos _ s rfl)
  | kDetermineType =>
    rw [readDataType_kDT _ _ rfl] at h
    exact absurd h (phaseReadValue_ne_eos_kDT _ s rfl)

/-- C6, witness: a two-byte-argument header `0x19` with no argument bytes yet
returns `kEOS`; calling again returns `kEOS` without change, and feeding the
two remaining bytes resumes exactly as if all three bytes had been present. -/
theorem c6_witness :
    (readDataType initialReader [25]).1 = DataType.kEOS ∧
    readDataType (readDataType initialReader [25]).2.1
        (readDataType initialReader [25]).2.2 =
      (DataType.kEOS, (readDataType initialReader [25]).2.1,
        (readDataType initialReader [25]).2.2) ∧
    readDataType (readDataType initialReader [25]).2.1
        ((readDataType initialReader [25]).2.2 ++ [1, 0]) =
      readDataType initialReader ([25] ++ [1, 0]) :=
  ⟨by decide,
   (c6_streaming_idempotent initialReader [25] (by decide)).1,
   (c6_streaming_idempotent initialReader [25] (by decide)).2.2 [1, 0]⟩

end LibCBOR
